import Mathlib

/-!
Shallow embedding of the Web2DSocialGameEngine game-action engine
(src/server: ActionHandlers.cpp, game_logic.cpp, GridCollision.cpp,
MoraleCalculator.cpp, GameConfigCache.cpp, FiefdomFetcher.cpp), together
with theorems settling the claims about it.

Modelling conventions:
- SQLite rows become Lean structures; a table is a list of rows.  A
  single-row SELECT whose callback overwrites locals keeps the last
  matching row, so lookups take the last match.
- nlohmann::json payloads and configuration documents are embedded as
  typed structures whose optional fields mirror exactly the keys the
  source reads; an absent key is none.
- C++ int is Int; double amounts in the time advancer are Rat (the
  claims are about the algebra of the computation, and for the integer
  inputs used here the double computations agree with the exact ones).
- The current wall-clock time (Validation::getCurrentTimestamp, or
  system_clock in updateStateSince) is passed in as an explicit
  argument named now.
- A thrown exception inside a handler is caught and turned into a FAIL
  with error_code "database_error" and a rolled-back database; execute
  functions return the unchanged database on those paths.
-/

set_option maxRecDepth 20000

namespace Web2D

/-- The eight fungible resources of a fiefdom. -/
inductive Res
  | gold | wood | stone | steel | bronze | grain | leather | mana
deriving DecidableEq, Repr

/-- Column / json-key name of a resource (the resource_fields array of the source). -/
def Res.name : Res → String
  | .gold => "gold" | .wood => "wood" | .stone => "stone" | .steel => "steel"
  | .bronze => "bronze" | .grain => "grain" | .leather => "leather" | .mana => "mana"

/-- The iteration order of the resource_fields arrays in
Validation::deductResources / refundResources / calculateCumulativeCost. -/
def resOrder : List Res :=
  [.gold, .wood, .stone, .steel, .bronze, .grain, .leather, .mana]

/-- A json object mapping resource names to integer amounts (costs or refunds).
Only resource keys are representable: every call site of the source builds
these maps from the fixed resource_fields array. -/
structure CostMap where
  gold : Option Int := none
  wood : Option Int := none
  stone : Option Int := none
  steel : Option Int := none
  bronze : Option Int := none
  grain : Option Int := none
  leather : Option Int := none
  mana : Option Int := none
deriving DecidableEq, Repr

def CostMap.get (c : CostMap) : Res → Option Int
  | .gold => c.gold | .wood => c.wood | .stone => c.stone | .steel => c.steel
  | .bronze => c.bronze | .grain => c.grain | .leather => c.leather | .mana => c.mana

/-- costs.empty() on the json object. -/
def CostMap.isEmpty (c : CostMap) : Bool :=
  resOrder.all fun r => (c.get r).isNone

/-- DiffValue of game_logic.hpp (from_value / to_value are resource integers here). -/
structure DiffValue where
  field : String
  source_type : String
  source_id : Int
  entity_key : String
  from_value : Int
  to_value : Int
deriving DecidableEq, Repr

inductive ActionStatus
  | OK | FAIL | PARTIAL
deriving DecidableEq, Repr

/-- The keys the five handlers write into ActionResult::result. -/
structure ResultMap where
  building_type : Option String := none
  fiefdom_id : Option Int := none
  x : Option Int := none
  y : Option Int := none
  construction_start_ts : Option Int := none
  level : Option Int := none
  building_id : Option Int := none
  refund : Option CostMap := none
  new_x : Option Int := none
  new_y : Option Int := none
  cost : Option CostMap := none
deriving DecidableEq, Repr

structure ActionResult where
  status : ActionStatus := .OK
  error_message : String := ""
  error_code : String := ""
  result : ResultMap := {}
  side_effects : List DiffValue := []
  action_timestamp : Int := 0
deriving DecidableEq, Repr

/-- Short constructor for a FAIL result, mirroring the repeated assignment
pattern of the handlers. -/
def failR (code msg : String) : ActionResult :=
  { status := .FAIL, error_code := code, error_message := msg }

structure ActionContext where
  requesting_fiefdom_id : Int
  requesting_character_id : Int
  request_id : String := ""
  ip_address : String := ""
deriving DecidableEq, Repr

/-- A row of the fiefdoms table.  morale is stored as an integer here; no claim
touches its numeric value, only that it is left unchanged. -/
structure FiefdomRow where
  id : Int
  owner_id : Int
  name : String := ""
  x : Int := 0
  y : Int := 0
  peasants : Int := 0
  gold : Int := 0
  wood : Int := 0
  stone : Int := 0
  steel : Int := 0
  bronze : Int := 0
  grain : Int := 0
  leather : Int := 0
  mana : Int := 0
  wall_count : Int := 0
  morale : Int := 0
  last_update_time : Int := 0
deriving DecidableEq, Repr

def FiefdomRow.res (f : FiefdomRow) : Res → Int
  | .gold => f.gold | .wood => f.wood | .stone => f.stone | .steel => f.steel
  | .bronze => f.bronze | .grain => f.grain | .leather => f.leather | .mana => f.mana

/-- A row of the fiefdom_buildings table. -/
structure BuildingRow where
  id : Int
  fiefdom_id : Int
  name : String
  level : Int := 0
  x : Int := 0
  y : Int := 0
  construction_start_ts : Int := 0
  action_start_ts : Int := 0
  action_tag : String := ""
deriving DecidableEq, Repr

/-- A row of the fiefdom_walls table. -/
structure WallRow where
  id : Int
  fiefdom_id : Int
  generation : Int
  level : Int := 0
  hp : Int := 0
  construction_start_ts : Int := 0
deriving DecidableEq, Repr

/-- The game database state an action handler touches. -/
structure DB where
  fiefdoms : List FiefdomRow := []
  buildings : List BuildingRow := []
  walls : List WallRow := []
  nextBuildingId : Int := 1
  nextWallId : Int := 1
deriving DecidableEq, Repr

/-- SELECT ... FROM fiefdoms WHERE id = ? with a locals-overwriting callback:
the last matching row wins. -/
def DB.findFiefdom (db : DB) (fid : Int) : Option FiefdomRow :=
  (db.fiefdoms.filter fun f => f.id == fid).getLast?

def DB.findBuilding (db : DB) (bid : Int) : Option BuildingRow :=
  (db.buildings.filter fun b => b.id == bid).getLast?

/-- The eight balances read by the SELECT of deduct/refundResources; the C++
locals start at 0, so a missing row reads as all zeroes. -/
def DB.balancesOf (db : DB) (fid : Int) : Res → Int :=
  fun r => (((db.findFiefdom fid).map (fun f => f.res r)).getD 0)

/-- One iteration of the resource loop of deduct/refundResources: if the map
names the resource, combine it into the balance with op and emit the diff. -/
def resStep (op : Int → Int → Int) (fid : Int) (nm : String)
    (c : Option Int) (before : Int) : Int × List DiffValue :=
  match c with
  | none => (before, [])
  | some k =>
      let after := op before k
      (after, [{ field := nm, source_type := "fiefdom", source_id := fid,
                 entity_key := "fiefdom_id", from_value := before, to_value := after }])

/-- UPDATE fiefdoms SET gold = ?, ..., mana = ? WHERE id = ? (only the eight
resource columns are written). -/
def DB.writeBalances (db : DB) (fid : Int) (g : Res → Int) : DB :=
  { db with fiefdoms := db.fiefdoms.map fun f =>
      if f.id == fid then
        { f with gold := g .gold, wood := g .wood, stone := g .stone, steel := g .steel,
                 bronze := g .bronze, grain := g .grain, leather := g .leather, mana := g .mana }
      else f }

/-- Outcome of one deduct/refund call: the database afterwards, the DiffValue
entries appended to the caller's ActionResult, and the number of UPDATE
statements issued. -/
structure ResourceWriteOutcome where
  db : DB
  diffs : List DiffValue
  writes : Nat
deriving Repr

/-- Core of Validation::deductResources / refundResources: read the balances,
apply op for each named resource in the fixed resource_fields order (emitting
one diff each), then write all eight balances back in one UPDATE. -/
def resourceApply (op : Int → Int → Int) (db : DB) (fid : Int) (m : CostMap) :
    ResourceWriteOutcome :=
  let bal := db.balancesOf fid
  let g := resStep op fid "gold" m.gold (bal .gold)
  let w := resStep op fid "wood" m.wood (bal .wood)
  let s := resStep op fid "stone" m.stone (bal .stone)
  let st := resStep op fid "steel" m.steel (bal .steel)
  let b := resStep op fid "bronze" m.bronze (bal .bronze)
  let gr := resStep op fid "grain" m.grain (bal .grain)
  let l := resStep op fid "leather" m.leather (bal .leather)
  let mn := resStep op fid "mana" m.mana (bal .mana)
  let newBal : Res → Int := fun r => match r with
    | .gold => g.1 | .wood => w.1 | .stone => s.1 | .steel => st.1
    | .bronze => b.1 | .grain => gr.1 | .leather => l.1 | .mana => mn.1
  { db := db.writeBalances fid newBal,
    diffs := g.2 ++ w.2 ++ s.2 ++ st.2 ++ b.2 ++ gr.2 ++ l.2 ++ mn.2,
    writes := 1 }

/-- Validation::deductResources.  It returns early (no read, no write, no
diffs) when the cost map is empty; it never checks that balances suffice and
its returned ActionResult is always OK. -/
def deductResources (db : DB) (fid : Int) (costs : CostMap) : ResourceWriteOutcome :=
  if costs.isEmpty then { db := db, diffs := [], writes := 0 }
  else resourceApply (fun a k => a - k) db fid costs

/-- Validation::refundResources.  Unlike deductResources it has no empty-map
early return: it always reads and issues the batched UPDATE. -/
def refundResources (db : DB) (fid : Int) (amounts : CostMap) : ResourceWriteOutcome :=
  resourceApply (fun a k => a + k) db fid amounts

/-! Configuration documents (GameConfigCache.hpp / GameConfigCache.cpp). -/

/-- A per-resource production record of a building type:
the amount / amount_multiplier / periodicity / periodicity_multiplier object
read by updateStateSince. -/
structure ProdSpec where
  amount : Rat
  amount_multiplier : Option Rat := none
  periodicity : Rat
  periodicity_multiplier : Option Rat := none
deriving DecidableEq, Repr

/-- The nine producible fields iterated by the production loop of
updateStateSince, in its source order. -/
inductive PField
  | peasants | gold | grain | wood | steel | bronze | stone | leather | mana
deriving DecidableEq, Repr

def PField.name : PField → String
  | .peasants => "peasants" | .gold => "gold" | .grain => "grain" | .wood => "wood"
  | .steel => "steel" | .bronze => "bronze" | .stone => "stone"
  | .leather => "leather" | .mana => "mana"

def pfOrder : List PField :=
  [.peasants, .gold, .grain, .wood, .steel, .bronze, .stone, .leather, .mana]

/-- The production keys a building-type config may carry, one per field. -/
structure ProdMap where
  peasants : Option ProdSpec := none
  gold : Option ProdSpec := none
  grain : Option ProdSpec := none
  wood : Option ProdSpec := none
  steel : Option ProdSpec := none
  bronze : Option ProdSpec := none
  stone : Option ProdSpec := none
  leather : Option ProdSpec := none
  mana : Option ProdSpec := none
deriving DecidableEq, Repr

def ProdMap.get (m : ProdMap) : PField → Option ProdSpec
  | .peasants => m.peasants | .gold => m.gold | .grain => m.grain | .wood => m.wood
  | .steel => m.steel | .bronze => m.bronze | .stone => m.stone
  | .leather => m.leather | .mana => m.mana

/-- A building-type configuration record: exactly the keys the source reads. -/
structure BuildingConfig where
  display_name : Option String := none
  gold_cost : Option (List Int) := none
  wood_cost : Option (List Int) := none
  stone_cost : Option (List Int) := none
  steel_cost : Option (List Int) := none
  bronze_cost : Option (List Int) := none
  grain_cost : Option (List Int) := none
  leather_cost : Option (List Int) := none
  mana_cost : Option (List Int) := none
  construction_times : Option (List Int) := none
  max_level : Option Int := none
  width : Option Int := none
  height : Option Int := none
  morale_boost : Option Rat := none
  morale_effect_mode : Option String := none
  production : ProdMap := {}
deriving DecidableEq, Repr

def BuildingConfig.costField (c : BuildingConfig) : Res → Option (List Int)
  | .gold => c.gold_cost | .wood => c.wood_cost | .stone => c.stone_cost
  | .steel => c.steel_cost | .bronze => c.bronze_cost | .grain => c.grain_cost
  | .leather => c.leather_cost | .mana => c.mana_cost

/-- One element of the fiefdom_building_types document: a json object mapping
type names to configs (iterated with contains / operator[]). -/
abbrev BTypeObj : Type := List (String × BuildingConfig)

/-- type_obj.contains(building_type). -/
def btContains (t : BTypeObj) (nm : String) : Bool :=
  t.any fun p => p.1 == nm

/-- type_obj[building_type] (first entry; nlohmann objects have unique keys). -/
def btLookup (t : BTypeObj) (nm : String) : Option BuildingConfig :=
  (t.find? fun p => p.1 == nm).map (fun p => p.2)

/-- Per-generation wall configuration record: the keys the source reads. -/
structure WallGenConfig where
  gold_cost : Option (List Int) := none
  stone_cost : Option (List Int) := none
  hp : Option (List Int) := none
  morale_boost : Option (List Rat) := none
  construction_times : Option (List Int) := none
  width : Option Int := none
  length : Option Int := none
  thickness : Option Int := none
deriving DecidableEq, Repr

/-- The embedded wall_config document: a walls object keyed by the generation
as a decimal string, plus max_wall_count. -/
structure WallConfigDoc where
  walls : List (String × WallGenConfig) := []
  max_wall_count : Option Int := none
deriving DecidableEq, Repr

/-- A value of the json map built by GameConfigCache::getAllConfigs.  Only the
shapes the callers inspect are distinguished. -/
inductive ConfigDoc
  | buildingTypes (types : List BTypeObj)
  | wallConfig (w : WallConfigDoc)
  | plain
deriving DecidableEq, Repr

/-- GameConfigCache (GameConfigCache.hpp): the seven loaded documents plus the
loaded flag.  The wall_config member exists (line 37 of the header) but, as in
the source, getAllConfigs below does not expose it. -/
structure GameConfigCache where
  damage_types : ConfigDoc := .plain
  fiefdom_building_types : List BTypeObj := []
  player_combatants : ConfigDoc := .plain
  enemy_combatants : ConfigDoc := .plain
  heroes : ConfigDoc := .plain
  fiefdom_officials : ConfigDoc := .plain
  wall_config : WallConfigDoc := {}
  loaded : Bool := true
deriving DecidableEq, Repr

/-- GameConfigCache::getAllConfigs (GameConfigCache.cpp lines 74 to 83): the
result json holds exactly these six keys; wall_config is not among them. -/
def getAllConfigs (c : GameConfigCache) : List (String × ConfigDoc) :=
  [("damage_types", c.damage_types),
   ("fiefdom_building_types", .buildingTypes c.fiefdom_building_types),
   ("player_combatants", c.player_combatants),
   ("enemy_combatants", c.enemy_combatants),
   ("heroes", c.heroes),
   ("fiefdom_officials", c.fiefdom_officials)]

/-- Validation::getWallConfig (ActionHandlers.cpp lines 576 to 582): checks
isLoaded, then looks the key wall_config up in getAllConfigs. -/
def vGetWallConfig (c : GameConfigCache) : Option WallConfigDoc :=
  if !c.loaded then none
  else
    match (getAllConfigs c).find? (fun p => p.1 == "wall_config") with
    | some (_, .wallConfig w) => some w
    | _ => none

/-- Validation::getWallConfigByGeneration (ActionHandlers.cpp lines 713 to
723): walls object of the wall config, keyed by the decimal generation. -/
def vGetWallConfigByGeneration (c : GameConfigCache) (generation : Int) : Option WallGenConfig :=
  match vGetWallConfig c with
  | none => none
  | some cfg => ((cfg.walls.find? fun p => p.1 == toString generation).map fun p => p.2)

/-- GridCollision::getWallConfigByGeneration (GridCollision.cpp lines 174 to
189): same lookup, reimplemented in that file. -/
def gcGetWallConfigByGeneration (c : GameConfigCache) (generation : Int) : Option WallGenConfig :=
  if !c.loaded then none
  else
    match (getAllConfigs c).find? (fun p => p.1 == "wall_config") with
    | some (_, .wallConfig w) =>
        ((w.walls.find? fun p => p.1 == toString generation).map fun p => p.2)
    | _ => none

/-! Validation helpers of ActionHandlers.cpp. -/

/-- Validation::userOwnsFiefdom: COUNT of fiefdoms with this id and owner. -/
def userOwnsFiefdom (db : DB) (ctx : ActionContext) (fid : Int) : Bool :=
  db.fiefdoms.any fun f => f.id == fid && f.owner_id == ctx.requesting_character_id

/-- Validation::buildingTypeExists: some element of the building-types
document contains the name. -/
def buildingTypeExists (cache : GameConfigCache) (bt : String) : Bool :=
  cache.fiefdom_building_types.any fun t => btContains t bt

/-- Validation::getBuildingConfig: the config of the first containing object. -/
def getBuildingConfig (cache : GameConfigCache) (bt : String) : Option BuildingConfig :=
  match cache.fiefdom_building_types.find? (fun t => btContains t bt) with
  | some t => btLookup t bt
  | none => none

/-- Validation::hasCompletedHomeBase: a home_base row with level above 0. -/
def hasCompletedHomeBase (db : DB) (fid : Int) : Bool :=
  db.buildings.any fun b =>
    b.fiefdom_id == fid && b.name == "home_base" && decide (0 < b.level)

/-- Validation::userOwnsBuilding: fiefdom_id of the building row (0 when
absent), then ownership of that fiefdom. -/
def userOwnsBuilding (db : DB) (ctx : ActionContext) (bid : Int) : Bool :=
  let fid := ((db.findBuilding bid).map fun b => b.fiefdom_id).getD 0
  if fid == 0 then false else userOwnsFiefdom db ctx fid

/-- Validation::wallGenerationExists / hasWallGeneration. -/
def hasWallGeneration (db : DB) (fid generation : Int) : Bool :=
  db.walls.any fun w => w.fiefdom_id == fid && w.generation == generation

/-! GridCollision.cpp. -/

structure Rect where
  x : Int
  y : Int
  width : Int
  height : Int
deriving DecidableEq, Repr

/-- Rect::overlaps: the axis-aligned strict-overlap test. -/
def Rect.overlaps (a b : Rect) : Bool :=
  decide (a.x < b.x + b.width) && decide (b.x < a.x + a.width) &&
  decide (a.y < b.y + b.height) && decide (b.y < a.y + a.height)

structure BuildingDimensions where
  width : Int := 1
  height : Int := 1
  valid : Bool := false
deriving DecidableEq, Repr

structure PlacementCheck where
  valid : Bool := true
  overlapping_building_ids : List Int := []
  error_message : String := ""
deriving DecidableEq, Repr

/-- GridCollision::getBuildingDimensions: width/height of the first config
containing the type (defaults 1), invalid when no object contains it. -/
def getBuildingDimensions (cache : GameConfigCache) (bt : String) : BuildingDimensions :=
  match cache.fiefdom_building_types.find? (fun t => btContains t bt) with
  | some t =>
      match btLookup t bt with
      | some cfg => { width := cfg.width.getD 1, height := cfg.height.getD 1, valid := true }
      | none => {}
  | none => {}

/-- GridCollision::getBuildingDimensionsPair (invalid dims still give 1 by 1). -/
def getBuildingDimensionsPair (cache : GameConfigCache) (bt : String) : Int × Int :=
  let d := getBuildingDimensions cache bt
  (d.width, d.height)

/-- GridCollision::isValidPosition: both coordinates within 1000 of origin. -/
def isValidPosition (x y : Int) : Bool :=
  decide (-1000 ≤ x) && decide (x ≤ 1000) && decide (-1000 ≤ y) && decide (y ≤ 1000)

/-- GridCollision::checkPlacement (GridCollision.cpp lines 78 to 156). -/
def checkPlacement (db : DB) (cache : GameConfigCache) (fid : Int) (bt : String)
    (x y : Int) (check_home_base_position : Bool) (exclude_building_id : Int) :
    PlacementCheck :=
  if !isValidPosition x y then
    { valid := false, error_message := "Position is outside the valid range" }
  else if bt == "home_base" && check_home_base_position && (x != 0 || y != 0) then
    { valid := false,
      error_message := "Manor House (home_base) must be built at location (0, 0)" }
  else
    let dims := getBuildingDimensions cache bt
    if !dims.valid then
      { valid := false, error_message := "Unknown building type: " ++ bt }
    else
      let newRect : Rect := { x := x, y := y, width := dims.width, height := dims.height }
      let existing :=
        if 0 < exclude_building_id then
          db.buildings.filter fun b => b.fiefdom_id == fid && b.id != exclude_building_id
        else
          db.buildings.filter fun b => b.fiefdom_id == fid
      let overlapping := (existing.filter fun b =>
          let d := getBuildingDimensionsPair cache b.name
          newRect.overlaps { x := b.x, y := b.y, width := d.1, height := d.2 }).map
        (fun b => b.id)
      if overlapping.isEmpty then { valid := true }
      else { valid := false, overlapping_building_ids := overlapping,
             error_message := "Location overlaps with existing buildings" }

/-- Validation::canBuildBuildingHere: checkPlacement with the home-base origin
rule enforced exactly for home_base, no exclusion. -/
def canBuildBuildingHere (db : DB) (cache : GameConfigCache) (bt : String)
    (fid x y : Int) : Bool :=
  (checkPlacement db cache fid bt x y (bt == "home_base") 0).valid

/-! BuildActionHandler (ActionHandlers.cpp lines 12 to 154). -/

structure BuildPayload where
  fiefdom_id : Option Int := none
  building_type : Option String := none
  x : Option Int := none
  y : Option Int := none
deriving DecidableEq, Repr

/-- BuildActionHandler::validate, with its exact check order: required fields
fiefdom_id and building_type, ownership, known type, config, the home-base
gate, and only then the coordinate-presence and spatial checks. -/
def buildValidate (db : DB) (cache : GameConfigCache) (p : BuildPayload)
    (ctx : ActionContext) : ActionResult :=
  match p.fiefdom_id with
  | none => failR "fiefdom_id_required" "fiefdom_id is required"
  | some fid =>
    match p.building_type with
    | none => failR "building_type_required" "building_type is required"
    | some bt =>
      if !userOwnsFiefdom db ctx fid then
        failR "not_owner" "User does not own this fiefdom"
      else if !buildingTypeExists cache bt then
        failR "unknown_building" ("Unknown building type: " ++ bt)
      else
        match getBuildingConfig cache bt with
        | none => failR "invalid_config" "Building configuration not found"
        | some _cfg =>
          let rest : ActionResult :=
            match p.x, p.y with
            | some x, some y =>
              if !canBuildBuildingHere db cache bt fid x y then
                failR "invalid_location" "Cannot build at specified location"
              else { status := .OK, error_message := "OK" }
            | _, _ =>
              failR "coordinates_required"
                "x and y coordinates are required for building placement"
          if bt == "home_base" then
            if hasCompletedHomeBase db fid then
              failR "home_base_exists" "A home_base already exists"
            else rest
          else if !hasCompletedHomeBase db fid then
            failR "home_base_required" "You must build a home_base before other buildings"
          else rest

/-- The cost json built by BuildActionHandler::execute: only gold_cost,
wood_cost and stone_cost are consulted, each contributing the entry at index
0.  An empty present array makes that index a json null, whose later integer
conversion throws (modelled as none, surfacing as database_error). -/
def buildCostEntry : Option (List Int) → Option (Option Int)
  | none => some none
  | some l =>
    match l.head? with
    | some v => some (some v)
    | none => none

def buildCosts (cfg : BuildingConfig) : Option CostMap :=
  match buildCostEntry cfg.gold_cost, buildCostEntry cfg.wood_cost,
        buildCostEntry cfg.stone_cost with
  | some g, some w, some s => some { gold := g, wood := w, stone := s }
  | _, _, _ => none

/-- Modelled from the spec: FiefdomFetcher::createBuilding (declared with
coordinates in FiefdomFetcher.hpp line 28; that overload's definition is not
in src/).  The spec: create a building row with the given level,
construction_start_ts and coordinates.  The fresh row id is drawn from the
model's AUTOINCREMENT counter. -/
def createBuilding (db : DB) (fid : Int) (nm : String) (level : Int)
    (construction_start_ts action_start_ts : Int) (tag : String) (x y : Int) : DB :=
  { db with
    buildings := db.buildings ++
      [{ id := db.nextBuildingId, fiefdom_id := fid, name := nm, level := level,
         x := x, y := y, construction_start_ts := construction_start_ts,
         action_start_ts := action_start_ts, action_tag := tag }],
    nextBuildingId := db.nextBuildingId + 1 }

/-- BuildActionHandler::execute: re-validate, deduct the gold/wood/stone
level-0 costs, insert the level-0 row.  Failure paths roll the transaction
back (the input database is returned). -/
def buildExecute (db : DB) (cache : GameConfigCache) (p : BuildPayload)
    (ctx : ActionContext) (now : Int) : ActionResult × DB :=
  let v := buildValidate db cache p ctx
  if v.status != .OK then (v, db)
  else
    let fid := p.fiefdom_id.getD 0
    let bt := p.building_type.getD ""
    let x := p.x.getD 0
    let y := p.y.getD 0
    match getBuildingConfig cache bt with
    | none => (failR "invalid_config" "", db)
    | some cfg =>
      match buildCosts cfg with
      | none => (failR "database_error" "json type error", db)
      | some costs =>
        let d := deductResources db fid costs
        let db2 := createBuilding d.db fid bt 0 now 0 "" x y
        ({ status := .OK,
           result := { building_type := some bt, fiefdom_id := some fid,
                       x := some x, y := some y, construction_start_ts := some now,
                       level := some 0 },
           side_effects := d.diffs, action_timestamp := now }, db2)

/-! DemolishActionHandler (ActionHandlers.cpp lines 156 to 245). -/

structure DemolishPayload where
  building_id : Option Int := none
deriving DecidableEq, Repr

/-- DemolishActionHandler::validate: required building_id, ownership through
the owning fiefdom, home_base immutability. -/
def demolishValidate (db : DB) (p : DemolishPayload) (ctx : ActionContext) :
    ActionResult :=
  match p.building_id with
  | none => failR "building_id_required" "building_id is required"
  | some bid =>
    if !userOwnsBuilding db ctx bid then
      failR "not_owner" "User does not own this building"
    else
      let nm := ((db.findBuilding bid).map fun b => b.name).getD ""
      if nm == "home_base" then
        failR "home_base_immutable" "Manor House (home_base) cannot be demolished"
      else { status := .OK }

/-- One resource of Validation::calculateCumulativeCost: the sum of the first
current_level entries (bounded by the array length), kept only when positive. -/
def cumulField (costs : Option (List Int)) (level : Int) : Option Int :=
  match costs with
  | none => none
  | some l =>
    let total := (l.take level.toNat).foldl (fun a v => a + v) 0
    if 0 < total then some total else none

/-- Validation::calculateCumulativeCost (ActionHandlers.cpp lines 615 to 639). -/
def calculateCumulativeCost (cache : GameConfigCache) (bt : String) (level : Int) :
    CostMap :=
  match getBuildingConfig cache bt with
  | none => {}
  | some cfg =>
    { gold := cumulField cfg.gold_cost level,
      wood := cumulField cfg.wood_cost level,
      stone := cumulField cfg.stone_cost level,
      steel := cumulField cfg.steel_cost level,
      bronze := cumulField cfg.bronze_cost level,
      grain := cumulField cfg.grain_cost level,
      leather := cumulField cfg.leather_cost level,
      mana := cumulField cfg.mana_cost level }

/-- static_cast of value * 0.8 to int, for a positive int32 value: the IEEE
double product truncates to exactly 4 * v / 5 rounded toward zero over that
whole range (the relative rounding error, below 1e-16, never crosses an
integer boundary there), and cumulative totals are positive, where truncation
agrees with this division. -/
def refund80 (v : Int) : Int := 4 * v / 5

/-- The refund map of DemolishActionHandler::execute: 80 percent of each
cumulative entry, floored. -/
def demolishRefundMap (c : CostMap) : CostMap :=
  { gold := c.gold.map refund80, wood := c.wood.map refund80,
    stone := c.stone.map refund80, steel := c.steel.map refund80,
    bronze := c.bronze.map refund80, grain := c.grain.map refund80,
    leather := c.leather.map refund80, mana := c.mana.map refund80 }

/-- Validation::deleteBuilding: DELETE FROM fiefdom_buildings WHERE id. -/
def deleteBuilding (db : DB) (bid : Int) : DB :=
  { db with buildings := db.buildings.filter fun b => b.id != bid }

/-- DemolishActionHandler::execute: re-validate, read name and level of the
row, refund 80 percent of the cumulative cost to the requesting context's
fiefdom, delete the row. -/
def demolishExecute (db : DB) (cache : GameConfigCache) (p : DemolishPayload)
    (ctx : ActionContext) (now : Int) : ActionResult × DB :=
  let v := demolishValidate db p ctx
  if v.status != .OK then (v, db)
  else
    let bid := p.building_id.getD 0
    let nm := ((db.findBuilding bid).map fun b => b.name).getD ""
    let lvl := ((db.findBuilding bid).map fun b => b.level).getD 0
    let fid := ctx.requesting_fiefdom_id
    let cumulative := calculateCumulativeCost cache nm lvl
    let refund := demolishRefundMap cumulative
    let rr := refundResources db fid refund
    let db2 := deleteBuilding rr.db bid
    ({ status := .OK,
       result := { building_id := some bid, refund := some refund },
       side_effects := rr.diffs, action_timestamp := now }, db2)

/-! MoveBuildingActionHandler (ActionHandlers.cpp lines 247 to 386). -/

structure MovePayload where
  building_id : Option Int := none
  x : Option Int := none
  y : Option Int := none
deriving DecidableEq, Repr

/-- MoveBuildingActionHandler::validate: required fields, ownership, home_base
immutability, not under construction, then the self-excluding spatial check,
failing with the code move_location_invalid. -/
def moveValidate (db : DB) (cache : GameConfigCache) (p : MovePayload)
    (ctx : ActionContext) : ActionResult :=
  match p.building_id with
  | none => failR "building_id_required" "building_id is required"
  | some bid =>
    match p.x, p.y with
    | some x, some y =>
      if !userOwnsBuilding db ctx bid then
        failR "not_owner" "User does not own this building"
      else
        let nm := ((db.findBuilding bid).map fun b => b.name).getD ""
        let lvl : Int := ((db.findBuilding bid).map fun b => b.level).getD 0
        if nm == "home_base" then
          failR "home_base_immutable" "Manor House (home_base) cannot be moved"
        else if lvl ≤ 0 then
          failR "cannot_move_under_construction" "Cannot move building under construction"
        else
          let placement := checkPlacement db cache ctx.requesting_fiefdom_id nm x y false bid
          if !placement.valid then
            failR "move_location_invalid" placement.error_message
          else { status := .OK }
    | _, _ => failR "coordinates_required" "x and y coordinates are required"

/-- The move cost of one resource: the current level's full cost divided by
ten with C++ integer division (toward zero), present only when the index
level - 1 is inside the array. -/
def moveCostField (costs : Option (List Int)) (level : Int) : Option Int :=
  match costs with
  | none => none
  | some l =>
    if 0 ≤ level - 1 ∧ level - 1 < (l.length : Int) then
      some (Int.tdiv (l.getD (level - 1).toNat 0) 10)
    else none

def moveCostMap (cfg : BuildingConfig) (level : Int) : CostMap :=
  { gold := moveCostField cfg.gold_cost level,
    wood := moveCostField cfg.wood_cost level,
    stone := moveCostField cfg.stone_cost level,
    steel := moveCostField cfg.steel_cost level,
    bronze := moveCostField cfg.bronze_cost level,
    grain := moveCostField cfg.grain_cost level,
    leather := moveCostField cfg.leather_cost level,
    mana := moveCostField cfg.mana_cost level }

/-- Validation::updateBuildingPosition: UPDATE x, y WHERE id. -/
def updateBuildingPosition (db : DB) (bid x y : Int) : DB :=
  { db with buildings := db.buildings.map fun b =>
      if b.id == bid then { b with x := x, y := y } else b }

/-- MoveBuildingActionHandler::execute: re-validate, deduct a tenth of the
current level's cost, update the position. -/
def moveExecute (db : DB) (cache : GameConfigCache) (p : MovePayload)
    (ctx : ActionContext) (now : Int) : ActionResult × DB :=
  let v := moveValidate db cache p ctx
  if v.status != .OK then (v, db)
  else
    let bid := p.building_id.getD 0
    let x := p.x.getD 0
    let y := p.y.getD 0
    let nm := ((db.findBuilding bid).map fun b => b.name).getD ""
    let lvl := ((db.findBuilding bid).map fun b => b.level).getD 0
    let cost :=
      match getBuildingConfig cache nm with
      | some cfg => moveCostMap cfg lvl
      | none => {}
    let d := deductResources db ctx.requesting_fiefdom_id cost
    let db2 := updateBuildingPosition d.db bid x y
    ({ status := .OK,
       result := { building_id := some bid, new_x := some x, new_y := some y,
                   cost := some cost },
       side_effects := d.diffs, action_timestamp := now }, db2)

/-! BuildWallActionHandler::validate (ActionHandlers.cpp lines 837 to 895). -/

structure BuildWallPayload where
  fiefdom_id : Option Int := none
  wall_generation : Option Int := none
deriving DecidableEq, Repr

/-- Validation::canAffordWall (ActionHandlers.cpp lines 738 to 763): checks
gold and stone against the level's entries of the generation's cost arrays;
false when the generation's config is missing. -/
def canAffordWall (db : DB) (cache : GameConfigCache) (fid generation level : Int) : Bool :=
  match vGetWallConfigByGeneration cache generation with
  | none => false
  | some cfg =>
    let gold := ((db.findFiefdom fid).map fun f => f.gold).getD 0
    let stone := ((db.findFiefdom fid).map fun f => f.stone).getD 0
    let okField : Option (List Int) → Int → Bool := fun costs have_ =>
      match costs with
      | none => true
      | some l =>
        if 0 < level ∧ level ≤ (l.length : Int) then
          decide (l.getD (level - 1).toNat 0 ≤ have_)
        else true
    okField cfg.gold_cost gold && okField cfg.stone_cost stone

/-- BuildWallActionHandler::validate: required fields, ownership, wall config
for the generation (failing with generation_invalid when absent), the
generation sequence, existence, and affordability checks. -/
def buildWallValidate (db : DB) (cache : GameConfigCache) (p : BuildWallPayload)
    (ctx : ActionContext) : ActionResult :=
  match p.fiefdom_id with
  | none => failR "fiefdom_id_required" "fiefdom_id is required"
  | some fid =>
    match p.wall_generation with
    | none => failR "wall_generation_required" "wall_generation is required"
    | some generation =>
      if !userOwnsFiefdom db ctx fid then
        failR "not_owner" "User does not own this fiefdom"
      else
        match vGetWallConfigByGeneration cache generation with
        | none => failR "generation_invalid" ("Invalid wall generation: " ++ toString generation)
        | some _cfg =>
          if decide (1 < generation) && !hasWallGeneration db fid (generation - 1) then
            failR "generation_sequence_required"
              ("Must build wall generation " ++ toString (generation - 1) ++ " first")
          else if hasWallGeneration db fid generation then
            failR "generation_exists"
              ("Wall generation " ++ toString generation ++ " already exists")
          else if !canAffordWall db cache fid generation 1 then
            failR "insufficient_resources" "Not enough resources to build wall"
          else { status := .OK }

/-! MoraleCalculator.cpp. -/

inductive EffectMode
  | Add | Max | Multiply
deriving DecidableEq, Repr

/-- Morale::parseMode: unknown strings default to Add. -/
def parseMode (s : String) : EffectMode :=
  if s == "add" then .Add
  else if s == "max" then .Max
  else if s == "multiply" then .Multiply
  else .Add

/-- Morale::calculateBuildingMorale: zero without a morale_boost key or with a
zero count; otherwise the mode combinator over the count (the Multiply loop
multiplies boost count times, that is boost to the count). -/
def calculateBuildingMorale (building_count : Nat) (cfg : BuildingConfig) : Rat :=
  match cfg.morale_boost with
  | none => 0
  | some boost =>
    if building_count == 0 then 0
    else
      match parseMode (cfg.morale_effect_mode.getD "add") with
      | .Add => boost * building_count
      | .Max => boost
      | .Multiply => boost ^ building_count

/-- The key set of the building_counts map of calculateFiefdomMorale.  The
map's iteration order is unspecified in the source; the total below does not
depend on the order chosen here. -/
def distinctNames : List BuildingRow → List String
  | [] => []
  | b :: rest =>
    let tail := distinctNames rest
    if b.name ∈ tail then tail else b.name :: tail

/-- The count stored in building_counts: every instance of the name, with no
level filter. -/
def countName (bs : List BuildingRow) (nm : String) : Nat :=
  (bs.filter fun b => b.name == nm).length

/-- The first containing type object's config, as the break-on-first loops of
MoraleCalculator.cpp and Validation::getBuildingConfig. -/
def typesLookup (types : List BTypeObj) (nm : String) : Option BuildingConfig :=
  match types.find? (fun t => btContains t nm) with
  | some t => btLookup t nm
  | none => none

/-- The buildings part of Morale::calculateFiefdomMorale (lines 100 to 113):
for each distinct name, the contribution of its first config at its count. -/
def buildingsMoraleTotal (types : List BTypeObj) (bs : List BuildingRow) : Rat :=
  (distinctNames bs).foldl
    (fun acc nm =>
      match typesLookup types nm with
      | some cfg => acc + calculateBuildingMorale (countName bs nm) cfg
      | none => acc) 0

/-! TimeAdvancer: GameLogic::updateStateSince (game_logic.cpp lines 79 to
309).  Balances are rationals here; the int columns the advancer reads are
obtained by truncation, and amounts computed in double are represented
exactly. -/

/-- Truncation toward zero, as the C++ static_cast from double to int. -/
def cppTrunc (q : Rat) : Int :=
  if q < 0 then -⌊-q⌋ else ⌊q⌋

/-- A fiefdoms row as the advancer sees it. -/
structure AdvFiefdomRow where
  id : Int
  owner_id : Int := 0
  name : String := ""
  x : Int := 0
  y : Int := 0
  peasants : Rat := 0
  gold : Rat := 0
  grain : Rat := 0
  wood : Rat := 0
  steel : Rat := 0
  bronze : Rat := 0
  stone : Rat := 0
  leather : Rat := 0
  mana : Rat := 0
  wall_count : Int := 0
  morale : Rat := 0
  last_update_time : Int := 0
deriving DecidableEq, Repr

def AdvFiefdomRow.pf (f : AdvFiefdomRow) : PField → Rat
  | .peasants => f.peasants | .gold => f.gold | .grain => f.grain | .wood => f.wood
  | .steel => f.steel | .bronze => f.bronze | .stone => f.stone
  | .leather => f.leather | .mana => f.mana

def AdvFiefdomRow.setPF (f : AdvFiefdomRow) (p : PField) (v : Rat) : AdvFiefdomRow :=
  match p with
  | .peasants => { f with peasants := v }
  | .gold => { f with gold := v }
  | .grain => { f with grain := v }
  | .wood => { f with wood := v }
  | .steel => { f with steel := v }
  | .bronze => { f with bronze := v }
  | .stone => { f with stone := v }
  | .leather => { f with leather := v }
  | .mana => { f with mana := v }

structure AdvDB where
  fiefdoms : List AdvFiefdomRow := []
  buildings : List BuildingRow := []
  walls : List WallRow := []
deriving DecidableEq, Repr

/-- The int values the initial SELECT reads into the FiefdomData snapshot. -/
def snapOf (f : AdvFiefdomRow) : PField → Int :=
  fun p => cppTrunc (f.pf p)

def AdvDB.setField (db : AdvDB) (fid : Int) (p : PField) (v : Rat) : AdvDB :=
  { db with fiefdoms := db.fiefdoms.map fun f =>
      if f.id == fid then f.setPF p v else f }

def AdvDB.setLastUpdate (db : AdvDB) (fid now : Int) : AdvDB :=
  { db with fiefdoms := db.fiefdoms.map fun f =>
      if f.id == fid then { f with last_update_time := now } else f }

def AdvDB.findFiefdom (db : AdvDB) (fid : Int) : Option AdvFiefdomRow :=
  (db.fiefdoms.filter fun f => f.id == fid).getLast?

/-- The construction-duration lookup of updateStateSince (lines 165 to 179):
the level-indexed entry, linear extrapolation from the last two entries past
the end, the single entry of a one-element array, else zero. -/
def constructionSeconds (times : Option (List Int)) (level : Int) : Int :=
  match times with
  | none => 0
  | some ts =>
    let maxIndex : Int := (ts.length : Int) - 1
    if level ≤ maxIndex then ts.getD level.toNat 0
    else if 1 ≤ maxIndex then
      let last := ts.getD (ts.length - 1) 0
      let prev := ts.getD (ts.length - 2) 0
      last + (last - prev) * (level - maxIndex)
    else if 0 < ts.length then ts.getD 0 0
    else 0

/-- One building of the completion pass (lines 158 to 195).  The database
write FiefdomFetcher::updateBuildingLevel is declared but not defined in src/;
modelled from the spec: set the new level and clear construction_start_ts. -/
def advanceBuilding (cache : GameConfigCache) (now : Int) (b : BuildingRow) :
    BuildingRow × Option (String × Int) :=
  if 0 < b.construction_start_ts then
    match getBuildingConfig cache b.name with
    | none => (b, none)
    | some cfg =>
      let cs := constructionSeconds cfg.construction_times b.level
      if 0 < cs ∧ cs ≤ now - b.construction_start_ts then
        ({ b with level := b.level + 1, construction_start_ts := 0 },
         some (b.name, b.level + 1))
      else (b, none)
  else (b, none)

/-- Validation::getWallHP (ActionHandlers.cpp lines 765 to 776). -/
def getWallHP (cache : GameConfigCache) (generation level : Int) : Int :=
  match vGetWallConfigByGeneration cache generation with
  | none => 0
  | some cfg =>
    match cfg.hp with
    | some l =>
      if 0 < level ∧ level ≤ (l.length : Int) then l.getD (level - 1).toNat 0 else 0
    | none => 0

/-- One wall of the completion pass (lines 197 to 236); the database write
FiefdomFetcher::updateWallLevel is modelled from the spec like
updateBuildingLevel, with the HP refreshed. -/
def advanceWall (cache : GameConfigCache) (now : Int) (w : WallRow) :
    WallRow × Option (String × Int) :=
  if 0 < w.construction_start_ts then
    match vGetWallConfigByGeneration cache w.generation with
    | none => (w, none)
    | some cfg =>
      let cs := constructionSeconds cfg.construction_times w.level
      if 0 < cs ∧ cs ≤ now - w.construction_start_ts then
        ({ w with level := w.level + 1, hp := getWallHP cache w.generation (w.level + 1),
                  construction_start_ts := 0 },
         some ("wall_gen_" ++ toString w.generation, w.level + 1))
      else (w, none)
  else (w, none)

structure ProductionUpdate where
  resource_type : String
  amount_produced : Rat
  source_type : String
  source_id : Int
  fiefdom_id : Int
deriving DecidableEq, Repr

/-- One pending production write: which field, the computed total, and the
producing building. -/
structure ProdEvent where
  pfield : PField
  total : Rat
  source_id : Int
deriving DecidableEq, Repr

/-- The per-spec total of the production loop (lines 248 to 262): full cycles
by truncation, straight multiplication for multiplier one, else the closed
geometric-series form; none when no full cycle elapsed. -/
def productionTotal (elapsed : Rat) (sp : ProdSpec) : Option Rat :=
  let cycles := elapsed / sp.periodicity
  let fc := cppTrunc cycles
  if 0 < fc then
    let m := sp.amount_multiplier.getD 1
    some (if m == 1 then sp.amount * (fc : Rat)
          else sp.amount * (m ^ fc.toNat - 1) / (m - 1))
  else none

/-- The production events of one building, in source order: every containing
type object, then the nine fields in the order of the source's resource list;
buildings at level zero or below are skipped. -/
def buildingProdEvents (types : List BTypeObj) (elapsed : Rat) (b : BuildingRow) :
    List ProdEvent :=
  if b.level ≤ 0 then []
  else
    (types.filter fun t => btContains t b.name).flatMap fun t =>
      match btLookup t b.name with
      | none => []
      | some cfg =>
        pfOrder.filterMap fun p =>
          (cfg.production.get p).bind fun sp =>
            (productionTotal elapsed sp).map fun tot =>
              { pfield := p, total := tot, source_id := b.id }

structure TimeUpdateResult where
  new_timestamp : Int
  time_hours_elapsed : Rat
  production_updates_applied : Nat := 0
  productions : List ProductionUpdate := []
  completed_trainings : List (String × Int) := []
  morale_changes : List (Int × Rat) := []
  fiefdoms_updated : Int := 0
deriving DecidableEq, Repr

/-- The body of the per-fiefdom loop of updateStateSince: complete overdue
buildings and walls, then apply production.  Each production write sets the
column to snapshot-plus-total, where the snapshot is the row as read at the
start of the call and is never refreshed between writes. -/
def advanceFiefdom (cache : GameConfigCache) (now : Int) (elapsed : Rat)
    (acc : TimeUpdateResult × AdvDB) (f : AdvFiefdomRow) : TimeUpdateResult × AdvDB :=
  let res := acc.1
  let db := acc.2
  let myBuildings := db.buildings.filter fun b => b.fiefdom_id == f.id
  let advanced := myBuildings.map (advanceBuilding cache now)
  let bs := advanced.map fun pr => pr.1
  let comps := advanced.filterMap fun pr => pr.2
  let db1 : AdvDB := { db with buildings := db.buildings.map fun b =>
      if b.fiefdom_id == f.id then (advanceBuilding cache now b).1 else b }
  let advW := (db1.walls.filter fun w => w.fiefdom_id == f.id).map (advanceWall cache now)
  let compW := advW.filterMap fun pr => pr.2
  let db2 : AdvDB := { db1 with walls := db1.walls.map fun w =>
      if w.fiefdom_id == f.id then (advanceWall cache now w).1 else w }
  let snap := snapOf f
  let evs := bs.flatMap (buildingProdEvents cache.fiefdom_building_types elapsed)
  let db3 := evs.foldl
    (fun d e => d.setField f.id e.pfield ((snap e.pfield : Rat) + e.total)) db2
  let pus := evs.map fun e =>
    ({ resource_type := e.pfield.name, amount_produced := e.total,
       source_type := "building", source_id := e.source_id,
       fiefdom_id := f.id } : ProductionUpdate)
  let db4 := db3.setLastUpdate f.id now
  ({ res with
       completed_trainings := res.completed_trainings ++ comps ++ compW,
       productions := res.productions ++ pus,
       fiefdoms_updated := res.fiefdoms_updated + 1 }, db4)

/-- GameLogic::updateStateSince.  It reads all target fiefdom rows first, then
advances each inside one transaction; with elapsed hours below a thousandth it
returns before touching the database, leaving fiefdoms_updated at zero.  The
comparison against the double literal 0.001 agrees with the exact 1/1000 for
every whole-second elapsed time. -/
def updateStateSince (db : AdvDB) (cache : GameConfigCache)
    (now last_update_time : Int) (fiefdom_filter : Option Int) :
    TimeUpdateResult × AdvDB :=
  let elapsed : Rat := ((now - last_update_time : Int) : Rat) / 3600
  let base : TimeUpdateResult := { new_timestamp := now, time_hours_elapsed := elapsed }
  if elapsed < 1 / 1000 then (base, db)
  else
    let targets : List AdvFiefdomRow :=
      match fiefdom_filter with
      | some fid => db.fiefdoms.filter fun f => f.id == fid
      | none => db.fiefdoms
    let out := targets.foldl (advanceFiefdom cache now elapsed) (base, db)
    ({ out.1 with production_updates_applied := out.1.productions.length }, out.2)

/-! Claim-side definitions: statements of what the spec's sentences say,
written from the spec's words, to be compared with the source embedding. -/

/-- The diff the resource loop emits for one named resource. -/
def diffFor (op : Int → Int → Int) (fid : Int) (bal : Res → Int) (m : CostMap)
    (r : Res) : List DiffValue :=
  match m.get r with
  | none => []
  | some k =>
    [{ field := r.name, source_type := "fiefdom", source_id := fid,
       entity_key := "fiefdom_id", from_value := bal r, to_value := op (bal r) k }]

/-- One diff per named resource, in the fixed resource order. -/
def expectedDiffs (op : Int → Int → Int) (fid : Int) (bal : Res → Int)
    (m : CostMap) : List DiffValue :=
  (resOrder.map (diffFor op fid bal m)).flatten

/-- The balance function after applying op to each named resource of the
balances that were read. -/
def opBal (op : Int → Int → Int) (bal : Res → Int) (m : CostMap) : Res → Int :=
  fun r =>
    match m.get r with
    | none => bal r
    | some k => op (bal r) k

/-- The claim's demolish refund for one resource: 80 percent (floored) of the
sum of the first L cost entries, present only when that sum is positive. -/
def claimDemolishRefund (cfg : BuildingConfig) (L : Nat) (r : Res) : Option Int :=
  match cfg.costField r with
  | none => none
  | some l =>
    let s := (l.take L).sum
    if 0 < s then some (4 * s / 5) else none

/-- The level-0 cost the build handler actually charges for one resource:
the head of the gold, wood or stone cost array, nothing for the other five. -/
def claimBuildCost (cfg : BuildingConfig) : Res → Option Int
  | .gold => cfg.gold_cost.bind fun l => l.head?
  | .wood => cfg.wood_cost.bind fun l => l.head?
  | .stone => cfg.stone_cost.bind fun l => l.head?
  | _ => none

/-- The claim's morale mode combinator. -/
def claimModeValue : EffectMode → Rat → Nat → Rat
  | .Add, boost, n => boost * n
  | .Max, boost, _ => boost
  | .Multiply, boost, n => boost ^ n

/-- Count of operational (level at least 1) instances of a type. -/
def countOperational (bs : List BuildingRow) (nm : String) : Nat :=
  (bs.filter fun b => b.name == nm && decide (0 < b.level)).length

/-- The claim C8 formula verbatim: sum over distinct types of the mode
combinator at the operational count, under-construction buildings
contributing nothing. -/
def claimBuildingsMoraleOperational (types : List BTypeObj) (bs : List BuildingRow) : Rat :=
  ((distinctNames bs).map fun nm =>
    match typesLookup types nm with
    | some cfg =>
      match cfg.morale_boost with
      | some boost =>
        let n := countOperational bs nm
        if n = 0 then 0
        else claimModeValue (parseMode (cfg.morale_effect_mode.getD "add")) boost n
      | none => 0
    | none => 0).sum

/-- One type's contribution under the amended C8 formula: the mode combinator
at the count of every instance of the type, whatever its level. -/
def claimContribAll (types : List BTypeObj) (bs : List BuildingRow) (nm : String) : Rat :=
  match typesLookup types nm with
  | some cfg =>
    match cfg.morale_boost with
    | some boost =>
      claimModeValue (parseMode (cfg.morale_effect_mode.getD "add")) boost (countName bs nm)
    | none => 0
  | none => 0

/-- The amended C8 formula: the sum over distinct types of the mode
combinator, with n counting every instance. -/
def claimBuildingsMoraleAll (types : List BTypeObj) (bs : List BuildingRow) : Rat :=
  ((distinctNames bs).map (claimContribAll types bs)).sum

/-- Total amount the advancer reports produced for one resource name. -/
def producedSum (pus : List ProductionUpdate) (nm : String) : Rat :=
  ((pus.filter fun u => u.resource_type == nm).map fun u => u.amount_produced).sum

/-! Concrete fixtures used by the closed theorems. -/

/-- A requesting context: character 7 acting for fiefdom 1. -/
def ctx17 : ActionContext :=
  { requesting_fiefdom_id := 1, requesting_character_id := 7 }

/-- A completed home base of fiefdom 1 at the origin. -/
def homeRow : BuildingRow :=
  { id := 1, fiefdom_id := 1, name := "home_base", level := 1, x := 0, y := 0 }

/-- Fiefdom 1 of character 7 with 50 gold and 100 of everything else. -/
def fiefC1 : FiefdomRow :=
  { id := 1, owner_id := 7, gold := 50, wood := 100, stone := 100, steel := 100,
    bronze := 100, grain := 100, leather := 100, mana := 100 }

def dbC1 : DB :=
  { fiefdoms := [fiefC1], buildings := [homeRow], nextBuildingId := 2 }

/-- A farm costing 100 gold at level 0. -/
def cacheC1 : GameConfigCache :=
  { fiefdom_building_types := [[("home_base", {}), ("farm", { gold_cost := some [100] })]] }

def payloadC1 : BuildPayload :=
  { fiefdom_id := some 1, building_type := some "farm", x := some 5, y := some 5 }

/-- Fiefdom 1 with 100 of every resource. -/
def fiefRich : FiefdomRow :=
  { id := 1, owner_id := 7, gold := 100, wood := 100, stone := 100, steel := 100,
    bronze := 100, grain := 100, leather := 100, mana := 100 }

def dbC6 : DB :=
  { fiefdoms := [fiefRich], buildings := [homeRow], nextBuildingId := 2 }

/-- A forge whose config carries gold_cost and steel_cost arrays. -/
def cacheC6 : GameConfigCache :=
  { fiefdom_building_types :=
      [[("home_base", {}), ("forge", { gold_cost := some [100], steel_cost := some [50] })]] }

def payloadC6 : BuildPayload :=
  { fiefdom_id := some 1, building_type := some "forge", x := some 5, y := some 5 }

/-- A payload missing both coordinates. -/
def payloadC7 : BuildPayload :=
  { fiefdom_id := some 1, building_type := some "farm" }

/-- A context whose character 9 does not own fiefdom 1. -/
def ctxC7 : ActionContext :=
  { requesting_fiefdom_id := 1, requesting_character_id := 9 }

/-- Scenario S3: two 2 by 2 barracks, one at (10,10) level 2, one at (12,10). -/
def cacheC9 : GameConfigCache :=
  { fiefdom_building_types :=
      [[("home_base", {}), ("barracks", { width := some 2, height := some 2 })]] }

def dbC9 : DB :=
  { fiefdoms := [fiefRich],
    buildings :=
      [{ id := 1, fiefdom_id := 1, name := "barracks", level := 2, x := 10, y := 10 },
       { id := 2, fiefdom_id := 1, name := "barracks", level := 1, x := 12, y := 10 }],
    nextBuildingId := 3 }

def payloadC9 : MovePayload :=
  { building_id := some 1, x := some 11, y := some 10 }

/-- One building type with an additive morale boost of 5, and one instance of
it still under construction (level 0). -/
def typesC8 : List BTypeObj :=
  [[("tavern", { morale_boost := some 5, morale_effect_mode := some "add" })]]

def bsC8 : List BuildingRow :=
  [{ id := 1, fiefdom_id := 1, name := "tavern", level := 0 }]

/-- A wall config document holding generations 1 and 2 (present in the cache
member, as the loaded document would be). -/
def wallDocC5 : WallConfigDoc :=
  { walls :=
      [("1", { gold_cost := some [100], stone_cost := some [100], hp := some [500] }),
       ("2", { gold_cost := some [200], stone_cost := some [200], hp := some [800] })] }

def cacheC5 : GameConfigCache :=
  { fiefdom_building_types := [], wall_config := wallDocC5 }

def dbC5 : DB := { fiefdoms := [fiefRich] }

/-- The advancer fixture of claim C2: one fiefdom, nothing to produce. -/
def advDbC2 : AdvDB := { fiefdoms := [{ id := 1, gold := 100 }] }

def cacheEmpty : GameConfigCache := {}

/-- The advancer fixture of claim C3: fiefdom 1 with 100 gold and two
operational farms, each producing 10 gold per hour (multiplier 1). -/
def advDbC3 : AdvDB :=
  { fiefdoms := [{ id := 1, gold := 100 }],
    buildings :=
      [{ id := 1, fiefdom_id := 1, name := "farm", level := 1 },
       { id := 2, fiefdom_id := 1, name := "farm", level := 1 }] }

def cacheC3 : GameConfigCache :=
  { fiefdom_building_types :=
      [[("farm", { production := { gold := some { amount := 10, periodicity := 1 } } })]] }

/-- Scenario S2: a level-3 building with cumulative costs 1000 gold, 500 wood. -/
def millCfg : BuildingConfig :=
  { gold_cost := some [500, 300, 200], wood_cost := some [200, 200, 100] }

def cacheC4 : GameConfigCache :=
  { fiefdom_building_types := [[("home_base", {}), ("mill", millCfg)]] }

def dbC4 : DB :=
  { fiefdoms := [fiefRich],
    buildings :=
      [homeRow, { id := 2, fiefdom_id := 1, name := "mill", level := 3, x := 5, y := 5 }],
    nextBuildingId := 3 }

def payloadC4 : DemolishPayload := { building_id := some 2 }

/-- A second fiefdom of the same character 7, with 100 gold: the demolish
refund lands wherever the caller's context points. -/
def dbC4x : DB :=
  { fiefdoms := [fiefRich, { id := 3, owner_id := 7, gold := 100 }],
    buildings :=
      [homeRow, { id := 2, fiefdom_id := 1, name := "mill", level := 3, x := 5, y := 5 }],
    nextBuildingId := 3 }

/-- A context whose requesting_fiefdom_id (3) is not the mill's owning
fiefdom (1); demolish validation never compares the two. -/
def ctxC4x : ActionContext :=
  { requesting_fiefdom_id := 3, requesting_character_id := 7 }

/-! Helper lemmas. -/

/-- The wall-config lookup of the validation layer never succeeds, whatever
the cache holds: getAllConfigs builds a six-key map that omits wall_config. -/
theorem vGetWallConfigByGeneration_eq_none (c : GameConfigCache) (g : Int) :
    vGetWallConfigByGeneration c g = none := by
  unfold vGetWallConfigByGeneration vGetWallConfig getAllConfigs
  cases c.loaded <;> rfl

/-- advanceFiefdom never touches the new_timestamp of the accumulated result. -/
theorem advanceFiefdom_new_timestamp (cache : GameConfigCache) (now : Int)
    (elapsed : Rat) (acc : TimeUpdateResult × AdvDB) (f : AdvFiefdomRow) :
    (advanceFiefdom cache now elapsed acc f).1.new_timestamp = acc.1.new_timestamp := by
  simp [advanceFiefdom]

theorem foldl_advanceFiefdom_new_timestamp (cache : GameConfigCache) (now : Int)
    (elapsed : Rat) (l : List AdvFiefdomRow) (acc : TimeUpdateResult × AdvDB) :
    (l.foldl (advanceFiefdom cache now elapsed) acc).1.new_timestamp = acc.1.new_timestamp := by
  induction l generalizing acc with
  | nil => rfl
  | cons f rest ih => simp [List.foldl_cons, ih, advanceFiefdom_new_timestamp]

/-- updateStateSince always reports the current time as new_timestamp. -/
theorem updateStateSince_new_timestamp (db : AdvDB) (cache : GameConfigCache)
    (now t : Int) (filt : Option Int) :
    (updateStateSince db cache now t filt).1.new_timestamp = now := by
  simp only [updateStateSince]
  by_cases h : ((now - t : Int) : Rat) / 3600 < 1 / 1000
  · rw [if_pos h]
  · rw [if_neg h]
    cases filt <;> simp [foldl_advanceFiefdom_new_timestamp]

/-- The short-circuit of updateStateSince: when the elapsed hours are below a
thousandth the call returns before touching the database, with empty
productions and completions and zero fiefdoms_updated. -/
theorem advance_short_circuit (db : AdvDB) (cache : GameConfigCache)
    (now t : Int) (filt : Option Int)
    (h : ((now - t : Int) : Rat) / 3600 < 1 / 1000) :
    updateStateSince db cache now t filt
      = ({ new_timestamp := now, time_hours_elapsed := ((now - t : Int) : Rat) / 3600,
           fiefdoms_updated := 0 }, db) := by
  simp only [updateStateSince]
  rw [if_pos h]

/-! Theorems settling the claims. -/

/-- C1: the claim asserts that an action whose deduction would drive a balance
negative fails with insufficient_resources leaving the fiefdom unchanged.
The code has no such check on the build path: fiefdom 1 holds 50 gold, the
farm costs 100 gold at level 0, yet execute returns OK and persists a gold
balance of minus 50. -/
theorem build_executes_ok_despite_insufficient_gold :
    (buildExecute dbC1 cacheC1 payloadC1 ctx17 1700000000).1.status = ActionStatus.OK ∧
    ((buildExecute dbC1 cacheC1 payloadC1 ctx17 1700000000).2.findFiefdom 1).map
        (fun f => f.gold) = some (-50) ∧
    ((-50 : Int) < 0) := by decide

/-- C5: the claim expects generation_sequence_required for build_wall of
generation g above 1 without generation g-1; but the wall-config lookup goes
through getAllConfigs, which omits the wall_config key, so for every cache and
every database the owned-fiefdom build_wall request fails earlier, with
generation_invalid. -/
theorem build_wall_sequencing_unreachable (db : DB) (cache : GameConfigCache)
    (ctx : ActionContext) (fid g : Int)
    (hown : userOwnsFiefdom db ctx fid = true) :
    (buildWallValidate db cache
        { fiefdom_id := some fid, wall_generation := some g } ctx).error_code
      = "generation_invalid" ∧
    (buildWallValidate db cache
        { fiefdom_id := some fid, wall_generation := some g } ctx).error_code
      ≠ "generation_sequence_required" := by
  simp only [buildWallValidate, vGetWallConfigByGeneration_eq_none]
  simp [hown, failR]

/-- Witness for C5: a fiefdom of character 7 with no walls, a cache whose
wall_config member does hold generations 1 and 2, a request for generation 2:
still generation_invalid. -/
theorem build_wall_sequencing_unreachable_witness :
    (buildWallValidate dbC5 cacheC5
        { fiefdom_id := some 1, wall_generation := some 2 } ctx17).error_code
      = "generation_invalid" ∧
    (buildWallValidate dbC5 cacheC5
        { fiefdom_id := some 1, wall_generation := some 2 } ctx17).error_code
      ≠ "generation_sequence_required" :=
  build_wall_sequencing_unreachable dbC5 cacheC5 ctx17 1 2 (by decide)

/-- C7 counterexample: the claim puts the coordinate-presence check before the
ownership check; on a payload with fiefdom_id and building_type but no
coordinates, issued by a non-owner, validate answers not_owner rather than
coordinates_required. -/
theorem build_validate_not_owner_before_coordinates :
    (buildValidate dbC1 cacheC1 payloadC7 ctxC7).error_code = "not_owner" ∧
    (buildValidate dbC1 cacheC1 payloadC7 ctxC7).error_code ≠ "coordinates_required" := by
  decide

/-- C9 counterexample: scenario S3 (move building 1 to (11,10), a 2 by 2
building 2 at (12,10)) fails as claimed, but with the error code
move_location_invalid, not invalid_location; the overlapping id is reported in
the placement check's overlap set. -/
theorem move_error_code_not_invalid_location :
    (moveValidate dbC9 cacheC9 payloadC9 ctx17).status = ActionStatus.FAIL ∧
    (moveValidate dbC9 cacheC9 payloadC9 ctx17).error_code = "move_location_invalid" ∧
    (moveValidate dbC9 cacheC9 payloadC9 ctx17).error_code ≠ "invalid_location" ∧
    2 ∈ (checkPlacement dbC9 cacheC9 1 "barracks" 11 10 false 1).overlapping_building_ids := by
  decide

/-- C6 counterexample: the forge config carries steel_cost = [50], the build
succeeds, yet the steel balance stays at 100 and the only deduction diff is
for gold: execute consults gold, wood and stone costs only, not all eight. -/
theorem build_ignores_steel_cost :
    (buildExecute dbC6 cacheC6 payloadC6 ctx17 1700000000).1.status = ActionStatus.OK ∧
    ((buildExecute dbC6 cacheC6 payloadC6 ctx17 1700000000).2.findFiefdom 1).map
        (fun f => f.steel) = some 100 ∧
    ((buildExecute dbC6 cacheC6 payloadC6 ctx17 1700000000).1.side_effects.map
        (fun d => d.field)) = ["gold"] := by decide

/-- C10 counterexample: the claim says an empty map performs no database
write; refundResources with an empty map still issues its UPDATE (one write),
while deductResources returns early with none. -/
theorem refund_empty_map_issues_update :
    (refundResources dbC1 1 {}).writes = 1 ∧
    (refundResources dbC1 1 {}).writes ≠ 0 ∧
    (refundResources dbC1 1 {}).diffs = [] ∧
    (deductResources dbC1 1 {}).writes = 0 := by decide

/-- C8 counterexample: one tavern at level 0 (under construction) with an
additive morale boost of 5.  The claim's operational count would contribute
nothing; the code counts every instance and contributes 5. -/
theorem morale_counts_level_zero_building :
    buildingsMoraleTotal typesC8 bsC8 = 5 ∧
    claimBuildingsMoraleOperational typesC8 bsC8 = 0 ∧
    buildingsMoraleTotal typesC8 bsC8 ≠ claimBuildingsMoraleOperational typesC8 bsC8 := by
  norm_num [buildingsMoraleTotal, claimBuildingsMoraleOperational, typesC8, bsC8,
    distinctNames, countName, countOperational, calculateBuildingMorale, claimModeValue,
    typesLookup, btContains, btLookup, parseMode, List.find?, List.filter]

/-- C2 counterexample: after a first advance at time 7200, an immediate second
advance with the returned timestamp short-circuits and reports
fiefdoms_updated = 0, not 1 as the claim states. -/
theorem advance_second_call_zero_fiefdoms_updated :
    (updateStateSince (updateStateSince advDbC2 cacheEmpty 7200 0 none).2 cacheEmpty
        7200 7200 none).1.fiefdoms_updated ≠ 1 := by
  have h2 : ∀ db2 : AdvDB,
      (updateStateSince db2 cacheEmpty 7200 7200 none).1.fiefdoms_updated = 0 := by
    intro db2
    rw [advance_short_circuit db2 cacheEmpty 7200 7200 none (by norm_num)]
  simp [h2]

set_option maxHeartbeats 2000000 in
/-- C3: fiefdom 1 has 100 gold and two operational farms, each producing 10
gold per hour; after two hours each records a ProductionUpdate of 20 (40 in
total) but the persisted balance is 120, not 140: each production write adds
its total to the stale snapshot read at the start of the call, so the second
write overwrites the first. -/
theorem production_lost_update_two_producers :
    producedSum (updateStateSince advDbC3 cacheC3 7200 0 none).1.productions "gold" = 40 ∧
    ((updateStateSince advDbC3 cacheC3 7200 0 none).2.findFiefdom 1).map
        (fun f => f.gold) = some 120 ∧
    ((100 : Rat) + 40) ≠ 120 := by
  refine ⟨?_, ?_, by norm_num⟩ <;>
  norm_num [updateStateSince, advanceFiefdom, advanceBuilding, advanceWall,
    buildingProdEvents, productionTotal, cppTrunc, advDbC3, cacheC3, producedSum,
    AdvDB.findFiefdom, AdvDB.setField, AdvDB.setLastUpdate, AdvFiefdomRow.setPF,
    AdvFiefdomRow.pf, snapOf, btContains, btLookup, getBuildingConfig, ProdMap.get,
    pfOrder, PField.name, List.find?, List.filter, List.filterMap, List.flatMap]

/-- C2 (amended): an advance immediately after another (elapsed below the
short-circuit threshold of a thousandth of an hour) returns empty productions
and completed_trainings, applies nothing to the database, and reports
fiefdoms_updated = 0 (the claim expected 1). -/
theorem advance_idempotent_short_circuit (db : AdvDB) (cache : GameConfigCache)
    (t0 now1 now2 : Int) (filt : Option Int)
    (h : ((now2 - (updateStateSince db cache now1 t0 filt).1.new_timestamp : Int) : Rat)
          / 3600 < 1 / 1000) :
    updateStateSince (updateStateSince db cache now1 t0 filt).2 cache now2
        (updateStateSince db cache now1 t0 filt).1.new_timestamp filt
      = ({ new_timestamp := now2,
           time_hours_elapsed :=
             ((now2 - (updateStateSince db cache now1 t0 filt).1.new_timestamp : Int) : Rat)
               / 3600,
           fiefdoms_updated := 0 },
         (updateStateSince db cache now1 t0 filt).2) :=
  advance_short_circuit _ cache now2 _ filt h

/-- Witness for the amended C2 at the concrete one-fiefdom database. -/
theorem advance_idempotent_short_circuit_witness :
    updateStateSince (updateStateSince advDbC2 cacheEmpty 7200 0 none).2 cacheEmpty 7200
        (updateStateSince advDbC2 cacheEmpty 7200 0 none).1.new_timestamp none
      = ({ new_timestamp := 7200,
           time_hours_elapsed :=
             ((7200 - (updateStateSince advDbC2 cacheEmpty 7200 0 none).1.new_timestamp
                : Int) : Rat) / 3600,
           fiefdoms_updated := 0 },
         (updateStateSince advDbC2 cacheEmpty 7200 0 none).2) :=
  advance_idempotent_short_circuit advDbC2 cacheEmpty 0 7200 7200 none
    (by rw [updateStateSince_new_timestamp]; norm_num)

/-! Frame lemmas for the resource accountant. -/

theorem resourceApply_writes (op : Int → Int → Int) (db : DB) (fid : Int) (m : CostMap) :
    (resourceApply op db fid m).writes = 1 := rfl

theorem resourceApply_db (op : Int → Int → Int) (db : DB) (fid : Int) (m : CostMap) :
    (resourceApply op db fid m).db
      = db.writeBalances fid (opBal op (db.balancesOf fid) m) := by
  rcases m with ⟨g, w, s, st, b, gr, l, mn⟩
  simp only [resourceApply]
  congr 1
  funext r
  cases r
  case gold => cases g <;> rfl
  case wood => cases w <;> rfl
  case stone => cases s <;> rfl
  case steel => cases st <;> rfl
  case bronze => cases b <;> rfl
  case grain => cases gr <;> rfl
  case leather => cases l <;> rfl
  case mana => cases mn <;> rfl

theorem resourceApply_diffs (op : Int → Int → Int) (db : DB) (fid : Int) (m : CostMap) :
    (resourceApply op db fid m).diffs
      = expectedDiffs op fid (db.balancesOf fid) m := by
  rcases m with ⟨g, w, s, st, b, gr, l, mn⟩
  cases g <;> cases w <;> cases s <;> cases st <;> cases b <;> cases gr <;>
    cases l <;> cases mn <;> rfl

/-- The field list of the emitted diffs: one entry per named resource, in the
fixed resource order. -/
theorem expectedDiffs_fields (op : Int → Int → Int) (fid : Int) (bal : Res → Int)
    (m : CostMap) :
    (expectedDiffs op fid bal m).map (fun d => d.field)
      = resOrder.filterMap (fun r => (m.get r).map (fun _ => r.name)) := by
  rcases m with ⟨g, w, s, st, b, gr, l, mn⟩
  cases g <;> cases w <;> cases s <;> cases st <;> cases b <;> cases gr <;>
    cases l <;> cases mn <;> rfl

/-- C10 (amended): both resource operations change exactly the named balances
of the addressed fiefdom's rows (all other columns and tables keep their
values), appending one DiffValue per named resource in the fixed order;
deductResources with an empty map performs no database write and appends no
diffs, while refundResources always issues its single batched UPDATE, even for
an empty map (writing the unchanged balances back and appending no diffs). -/
theorem resource_ops_frame (db : DB) (fid : Int) (m : CostMap) :
    (m.isEmpty = true →
        deductResources db fid m = { db := db, diffs := [], writes := 0 }) ∧
    (refundResources db fid m).writes = 1 ∧
    (refundResources db fid m).diffs
      = expectedDiffs (fun a k => a + k) fid (db.balancesOf fid) m ∧
    (refundResources db fid m).db
      = db.writeBalances fid (opBal (fun a k => a + k) (db.balancesOf fid) m) ∧
    (m.isEmpty = false →
        (deductResources db fid m).diffs
            = expectedDiffs (fun a k => a - k) fid (db.balancesOf fid) m ∧
        (deductResources db fid m).db
            = db.writeBalances fid (opBal (fun a k => a - k) (db.balancesOf fid) m) ∧
        (deductResources db fid m).writes = 1) ∧
    (refundResources db fid m).db.buildings = db.buildings ∧
    (refundResources db fid m).db.walls = db.walls ∧
    (∀ g ∈ db.fiefdoms, g.id ≠ fid → g ∈ (refundResources db fid m).db.fiefdoms) := by
  refine ⟨?_, rfl, resourceApply_diffs _ db fid m, resourceApply_db _ db fid m,
          ?_, rfl, rfl, ?_⟩
  · intro h
    simp [deductResources, h]
  · intro h
    simp only [deductResources, h, Bool.false_eq_true, if_false]
    exact ⟨resourceApply_diffs _ db fid m, resourceApply_db _ db fid m, rfl⟩
  · intro g hg hne
    simp only [refundResources, resourceApply, DB.writeBalances, List.mem_map]
    refine ⟨g, hg, ?_⟩
    have : (g.id == fid) = false := by simp [hne]
    simp [this]

/-- Witness for the amended C10 at a concrete database: the empty-map clause
discharged on the empty map, the nonempty clauses on a one-entry map. -/
theorem resource_ops_frame_witness :
    deductResources dbC1 1 {} = { db := dbC1, diffs := [], writes := 0 } ∧
    (refundResources dbC1 1 { gold := some 3 }).writes = 1 ∧
    (deductResources dbC1 1 { gold := some 3 }).diffs
      = expectedDiffs (fun a k => a - k) 1 (dbC1.balancesOf 1) { gold := some 3 } ∧
    (refundResources dbC1 1 { gold := some 3 }).db
      = dbC1.writeBalances 1
          (opBal (fun a k => a + k) (dbC1.balancesOf 1) { gold := some 3 }) :=
  ⟨(resource_ops_frame dbC1 1 {}).1 (by decide),
   (resource_ops_frame dbC1 1 { gold := some 3 }).2.1,
   ((resource_ops_frame dbC1 1 { gold := some 3 }).2.2.2.2.1 (by decide)).1,
   (resource_ops_frame dbC1 1 { gold := some 3 }).2.2.2.1⟩

/-! Morale lemmas. -/

/-- Every name in the counting map's key set has at least one instance. -/
theorem countName_ne_zero_of_mem (bs : List BuildingRow) (nm : String)
    (h : nm ∈ distinctNames bs) : countName bs nm ≠ 0 := by
  induction bs with
  | nil => simp [distinctNames] at h
  | cons b rest ih =>
    have hcons : countName (b :: rest) nm
        = (if b.name == nm then 1 else 0) + countName rest nm := by
      simp only [countName, List.filter_cons]
      split <;> simp [Nat.add_comm]
    rw [hcons]
    simp only [distinctNames] at h
    split at h
    · have h2 := ih h
      split <;> omega
    · rcases List.mem_cons.mp h with h1 | h2
      · have hb : (b.name == nm) = true := by simp [h1]
        rw [hb]
        simp
      · have h3 := ih h2
        split <;> omega

theorem foldl_add_eq_sum (f : String → Rat) (l : List String) (init : Rat) :
    l.foldl (fun acc nm => acc + f nm) init = init + (l.map f).sum := by
  induction l generalizing init with
  | nil => simp
  | cons a rest ih => simp [List.foldl_cons, ih, add_assoc]

/-- C8 (amended): the buildings part of the fiefdom morale equals the sum over
distinct building types of the mode combinator (add: boost times n; max:
boost; multiply: boost to the n) where n counts every instance of the type,
operational or still under construction. -/
theorem morale_total_counts_all_instances (types : List BTypeObj) (bs : List BuildingRow) :
    buildingsMoraleTotal types bs = claimBuildingsMoraleAll types bs := by
  unfold buildingsMoraleTotal claimBuildingsMoraleAll
  rw [List.foldl_ext _ (fun acc nm => acc + claimContribAll types bs nm) 0 ?hext]
  · rw [foldl_add_eq_sum, zero_add]
  case hext =>
    intro acc nm hnm
    have hc := countName_ne_zero_of_mem bs nm hnm
    unfold claimContribAll calculateBuildingMorale
    cases htl : typesLookup types nm with
    | none => simp [htl]
    | some cfg =>
      cases hb : cfg.morale_boost with
      | none => simp [htl, hb]
      | some boost =>
        simp only [htl, hb]
        have hcond : ¬ ((countName bs nm == 0) = true) := by simpa using hc
        rw [if_neg hcond]
        cases parseMode (cfg.morale_effect_mode.getD "add") <;>
          simp [claimModeValue]

/-! Row-lookup lemmas for the UPDATE and DELETE statements. -/

/-- A balances UPDATE leaves the looked-up row with exactly the written
balances on top of the previously found row. -/
theorem findFiefdom_writeBalances (db : DB) (fid : Int) (g : Res → Int) :
    (db.writeBalances fid g).findFiefdom fid
      = (db.findFiefdom fid).map fun f =>
          { f with gold := g .gold, wood := g .wood, stone := g .stone,
                   steel := g .steel, bronze := g .bronze, grain := g .grain,
                   leather := g .leather, mana := g .mana } := by
  unfold DB.writeBalances DB.findFiefdom
  simp only
  rw [List.filter_map]
  have hpred : ((fun f : FiefdomRow => f.id == fid) ∘ fun f : FiefdomRow =>
      if f.id == fid then
        { f with gold := g .gold, wood := g .wood, stone := g .stone, steel := g .steel,
                 bronze := g .bronze, grain := g .grain, leather := g .leather,
                 mana := g .mana }
      else f) = fun f : FiefdomRow => f.id == fid := by
    funext f
    by_cases h : f.id = fid <;> simp [h]
  rw [hpred, List.getLast?_map]
  cases hl : (db.fiefdoms.filter fun f => f.id == fid).getLast? with
  | none => rfl
  | some f0 =>
    have hmem : f0 ∈ db.fiefdoms.filter fun f => f.id == fid := by
      rcases List.mem_getLast?_eq_getLast
          (l := db.fiefdoms.filter fun f => f.id == fid) (x := f0) (by simp [hl]) with
        ⟨hne, heq⟩
      rw [heq]
      exact List.getLast_mem hne
    have hid : f0.id = fid := by
      simpa using (List.mem_filter.mp hmem).2
    simp [hid]

/-- DELETE FROM fiefdom_buildings WHERE id leaves no row with that id. -/
theorem findBuilding_deleteBuilding (db : DB) (bid : Int) :
    (deleteBuilding db bid).findBuilding bid = none := by
  unfold deleteBuilding DB.findBuilding
  simp only [List.filter_filter]
  have : (fun b : BuildingRow => b.id == bid && b.id != bid) = fun _ => false := by
    funext b
    by_cases h : (b.id == bid) = true <;> simp [h, bne]
  rw [this]
  simp

/-- A contained building type always yields a config: contains and the lookup
inspect the same objects. -/
theorem getBuildingConfig_isSome_of_typeExists (cache : GameConfigCache) (bt : String)
    (h : buildingTypeExists cache bt = true) :
    ∃ cfg, getBuildingConfig cache bt = some cfg := by
  unfold buildingTypeExists at h
  unfold getBuildingConfig
  have hfind : (cache.fiefdom_building_types.find? fun t => btContains t bt).isSome := by
    rw [List.find?_isSome]
    exact List.any_eq_true.mp h
  rcases Option.isSome_iff_exists.mp hfind with ⟨t0, ht0⟩
  rw [ht0]
  have hcont : btContains t0 bt = true :=
    List.find?_some (p := fun t => btContains t bt) ht0
  unfold btContains at hcont
  unfold btLookup
  have hfind2 : (t0.find? fun pr => pr.1 == bt).isSome := by
    rw [List.find?_isSome]
    exact List.any_eq_true.mp hcont
  rcases Option.isSome_iff_exists.mp hfind2 with ⟨pr0, hpr0⟩
  show ∃ cfg, (t0.find? fun p => p.1 == bt).map (fun p => p.2) = some cfg
  rw [hpr0]
  exact ⟨pr0.2, rfl⟩

/-- C7 (amended): BuildActionHandler::validate short-circuits in this order:
missing fiefdom_id, missing building_type, not_owner, unknown_building, the
home-base gate (home_base_exists / home_base_required), and only then the
coordinate-presence check and the spatial check.  In particular a payload
missing coordinates yields coordinates_required only once ownership, type and
home-base checks pass; a non-owner gets not_owner. -/
theorem build_validate_check_order (db : DB) (cache : GameConfigCache)
    (p : BuildPayload) (ctx : ActionContext) :
    (p.fiefdom_id = none →
      (buildValidate db cache p ctx).error_code = "fiefdom_id_required") ∧
    (∀ fid, p.fiefdom_id = some fid → p.building_type = none →
      (buildValidate db cache p ctx).error_code = "building_type_required") ∧
    (∀ fid bt, p.fiefdom_id = some fid → p.building_type = some bt →
      userOwnsFiefdom db ctx fid = false →
      (buildValidate db cache p ctx).error_code = "not_owner") ∧
    (∀ fid bt, p.fiefdom_id = some fid → p.building_type = some bt →
      userOwnsFiefdom db ctx fid = true → buildingTypeExists cache bt = false →
      (buildValidate db cache p ctx).error_code = "unknown_building") ∧
    (∀ fid, p.fiefdom_id = some fid → p.building_type = some "home_base" →
      userOwnsFiefdom db ctx fid = true →
      buildingTypeExists cache "home_base" = true →
      hasCompletedHomeBase db fid = true →
      (buildValidate db cache p ctx).error_code = "home_base_exists") ∧
    (∀ fid bt, p.fiefdom_id = some fid → p.building_type = some bt →
      bt ≠ "home_base" →
      userOwnsFiefdom db ctx fid = true → buildingTypeExists cache bt = true →
      hasCompletedHomeBase db fid = false →
      (buildValidate db cache p ctx).error_code = "home_base_required") ∧
    (∀ fid bt, p.fiefdom_id = some fid → p.building_type = some bt →
      userOwnsFiefdom db ctx fid = true → buildingTypeExists cache bt = true →
      (bt = "home_base" → hasCompletedHomeBase db fid = false) →
      (bt ≠ "home_base" → hasCompletedHomeBase db fid = true) →
      (p.x = none ∨ p.y = none) →
      (buildValidate db cache p ctx).error_code = "coordinates_required") ∧
    (∀ fid bt x y, p.fiefdom_id = some fid → p.building_type = some bt →
      userOwnsFiefdom db ctx fid = true → buildingTypeExists cache bt = true →
      (bt = "home_base" → hasCompletedHomeBase db fid = false) →
      (bt ≠ "home_base" → hasCompletedHomeBase db fid = true) →
      p.x = some x → p.y = some y →
      canBuildBuildingHere db cache bt fid x y = false →
      (buildValidate db cache p ctx).error_code = "invalid_location") := by
  refine ⟨?_, ?_, ?_, ?_, ?_, ?_, ?_, ?_⟩
  · intro h
    simp [buildValidate, h, failR]
  · intro fid hf hb
    simp [buildValidate, hf, hb, failR]
  · intro fid bt hf hb hown
    simp [buildValidate, hf, hb, hown, failR]
  · intro fid bt hf hb hown hex
    simp [buildValidate, hf, hb, hown, hex, failR]
  · intro fid hf hb hown hex hhome
    rcases getBuildingConfig_isSome_of_typeExists cache "home_base" hex with ⟨cfg, hcfg⟩
    simp [buildValidate, hf, hb, hown, hex, hcfg, hhome, failR]
  · intro fid bt hf hb hne hown hex hhome
    rcases getBuildingConfig_isSome_of_typeExists cache bt hex with ⟨cfg, hcfg⟩
    have hbeq : (bt == "home_base") = false := by
      simpa using hne
    simp [buildValidate, hf, hb, hown, hex, hcfg, hbeq, hhome, failR]
  · intro fid bt hf hb hown hex hhb hnhb hxy
    rcases getBuildingConfig_isSome_of_typeExists cache bt hex with ⟨cfg, hcfg⟩
    by_cases hb2 : bt = "home_base"
    · subst hb2
      rcases hxy with hx | hy
      · simp [buildValidate, hf, hb, hown, hex, hcfg, hhb rfl, hx, failR]
      · cases hpx : p.x <;>
          simp [buildValidate, hf, hb, hown, hex, hcfg, hhb rfl, hpx, hy, failR]
    · have hbeq : (bt == "home_base") = false := by simpa using hb2
      rcases hxy with hx | hy
      · simp [buildValidate, hf, hb, hown, hex, hcfg, hbeq, hnhb hb2, hx, failR]
      · cases hpx : p.x <;>
          simp [buildValidate, hf, hb, hown, hex, hcfg, hbeq, hnhb hb2, hpx, hy, failR]
  · intro fid bt x y hf hb hown hex hhb hnhb hx hy hcb
    rcases getBuildingConfig_isSome_of_typeExists cache bt hex with ⟨cfg, hcfg⟩
    by_cases hb2 : bt = "home_base"
    · subst hb2
      simp [buildValidate, hf, hb, hown, hex, hcfg, hhb rfl, hx, hy, hcb, failR]
    · have hbeq : (bt == "home_base") = false := by simpa using hb2
      simp [buildValidate, hf, hb, hown, hex, hcfg, hbeq, hnhb hb2, hx, hy, hcb, failR]

/-- Witness for the amended C7: the not_owner conjunct at the concrete
coordinate-free payload of a non-owner. -/
theorem build_validate_check_order_witness :
    (buildValidate dbC1 cacheC1 payloadC7 ctxC7).error_code = "not_owner" :=
  (build_validate_check_order dbC1 cacheC1 payloadC7 ctxC7).2.2.1 1 "farm"
    (by decide) (by decide) (by decide)

/-- A present, nonempty cost array yields its head as the level-0 cost entry;
an absent one contributes no key. -/
theorem buildCostEntry_of_ne_empty (o : Option (List Int)) (h : o ≠ some []) :
    buildCostEntry o = some (o.bind fun l => l.head?) := by
  cases o with
  | none => rfl
  | some l =>
    cases l with
    | nil => exact absurd rfl h
    | cons a t => rfl

/-- Creating a building row touches no fiefdom row. -/
theorem findFiefdom_createBuilding (db : DB) (fid2 fid : Int) (nm : String)
    (level cts ats : Int) (tag : String) (x y : Int) :
    (createBuilding db fid2 nm level cts ats tag x y).findFiefdom fid
      = db.findFiefdom fid := rfl

theorem res_mem_resOrder (r : Res) : r ∈ resOrder := by
  cases r <;> decide

/-- C6 (amended): a successful build deducts exactly the first entry of each
of the gold_cost, wood_cost and stone_cost arrays present in the config (the
other five resources are never charged), emitting one diff per deducted
resource, in that order. -/
theorem build_deducts_gold_wood_stone_heads (db : DB) (cache : GameConfigCache)
    (p : BuildPayload) (ctx : ActionContext) (now fid : Int) (bt : String)
    (cfg : BuildingConfig) (frow : FiefdomRow)
    (hfid : p.fiefdom_id = some fid) (hbt : p.building_type = some bt)
    (hval : (buildValidate db cache p ctx).status = ActionStatus.OK)
    (hcfg : getBuildingConfig cache bt = some cfg)
    (hg : cfg.gold_cost ≠ some []) (hw : cfg.wood_cost ≠ some [])
    (hs : cfg.stone_cost ≠ some [])
    (hrow : db.findFiefdom fid = some frow) :
    (buildExecute db cache p ctx now).1.status = ActionStatus.OK ∧
    (∀ r : Res,
      ((buildExecute db cache p ctx now).2.findFiefdom fid).map (fun f => f.res r)
        = some (frow.res r - (claimBuildCost cfg r).getD 0)) ∧
    ((buildExecute db cache p ctx now).1.side_effects.map (fun d => d.field)
      = resOrder.filterMap fun r => (claimBuildCost cfg r).map fun _ => r.name) := by
  have hcm : ∀ r : Res, CostMap.get
      { gold := cfg.gold_cost.bind (fun l => l.head?),
        wood := cfg.wood_cost.bind (fun l => l.head?),
        stone := cfg.stone_cost.bind (fun l => l.head?) } r = claimBuildCost cfg r := by
    intro r
    cases r <;> rfl
  have hbc : buildCosts cfg = some
      { gold := cfg.gold_cost.bind (fun l => l.head?),
        wood := cfg.wood_cost.bind (fun l => l.head?),
        stone := cfg.stone_cost.bind (fun l => l.head?) } := by
    unfold buildCosts
    rw [buildCostEntry_of_ne_empty _ hg, buildCostEntry_of_ne_empty _ hw,
        buildCostEntry_of_ne_empty _ hs]
  have hbalfn : db.balancesOf fid = frow.res := by
    funext r
    simp [DB.balancesOf, hrow]
  have hstat : ((buildValidate db cache p ctx).status != ActionStatus.OK) = false := by
    rw [hval]
    rfl
  simp only [buildExecute, hstat, Bool.false_eq_true, if_false, hfid, hbt,
    Option.getD_some, hcfg, hbc]
  by_cases hemp : CostMap.isEmpty
      { gold := cfg.gold_cost.bind (fun l => l.head?),
        wood := cfg.wood_cost.bind (fun l => l.head?),
        stone := cfg.stone_cost.bind (fun l => l.head?) } = true
  · have hnone : ∀ r : Res, claimBuildCost cfg r = none := by
      intro r
      rw [← hcm r]
      have := (List.all_eq_true.mp hemp) r (res_mem_resOrder r)
      simpa [Option.isNone_iff_eq_none] using this
    refine ⟨trivial, ?_, ?_⟩
    · intro r
      simp [deductResources, hemp, findFiefdom_createBuilding, hrow, hnone r]
    · simp only [deductResources, hemp, if_true, List.map_nil]
      symm
      rw [List.filterMap_eq_nil_iff]
      intro r _
      simp [hnone r]
  · refine ⟨trivial, ?_, ?_⟩
    · intro r
      simp only [deductResources, hemp, Bool.false_eq_true, if_false,
        findFiefdom_createBuilding, resourceApply_db, findFiefdom_writeBalances,
        hrow, Option.map_some]
      cases r <;> simp [FiefdomRow.res, opBal, hcm, hbalfn] <;>
        (cases hcl : claimBuildCost cfg _ <;> simp [CostMap.get, hcl])
    · simp only [deductResources, hemp, Bool.false_eq_true, if_false,
        resourceApply_diffs, expectedDiffs_fields]
      apply List.filterMap_congr
      intro r _
      rw [hcm r]

/-- Witness for the amended C6: the forge with gold_cost [100] and
steel_cost [50]; only the 100 gold is charged. -/
theorem build_deducts_gold_wood_stone_heads_witness :
    (buildExecute dbC6 cacheC6 payloadC6 ctx17 1700000000).1.status = ActionStatus.OK ∧
    (∀ r : Res,
      ((buildExecute dbC6 cacheC6 payloadC6 ctx17 1700000000).2.findFiefdom 1).map
          (fun f => f.res r)
        = some (fiefRich.res r -
            (claimBuildCost { gold_cost := some [100], steel_cost := some [50] } r).getD 0)) ∧
    ((buildExecute dbC6 cacheC6 payloadC6 ctx17 1700000000).1.side_effects.map
        (fun d => d.field)
      = resOrder.filterMap fun r =>
          (claimBuildCost { gold_cost := some [100], steel_cost := some [50] } r).map
            fun _ => r.name) :=
  build_deducts_gold_wood_stone_heads dbC6 cacheC6 payloadC6 ctx17 1700000000 1 "forge"
    { gold_cost := some [100], steel_cost := some [50] } fiefRich
    rfl rfl (by decide) (by decide) (by decide) (by decide) (by decide) (by decide)

/-- C9 (amended): a move whose target overlaps another building of the
requesting fiefdom fails in validate and execute with the code
move_location_invalid (the stable list's invalid_location is not used here),
and the overlapping building's id is collected in the placement check's
overlap set. -/
theorem move_overlap_fails_with_move_location_invalid (db : DB)
    (cache : GameConfigCache) (p : MovePayload) (ctx : ActionContext)
    (now bid x y : Int) (b other : BuildingRow)
    (hbid : p.building_id = some bid) (hx : p.x = some x) (hy : p.y = some y)
    (hbidpos : 0 < bid)
    (hrow : db.findBuilding bid = some b)
    (hown : userOwnsBuilding db ctx bid = true)
    (hnothb : b.name ≠ "home_base")
    (hlvl : 0 < b.level)
    (hpos : isValidPosition x y = true)
    (hdims : (getBuildingDimensions cache b.name).valid = true)
    (hmem : other ∈ db.buildings)
    (hofid : other.fiefdom_id = ctx.requesting_fiefdom_id)
    (hoid : other.id ≠ bid)
    (hovl : Rect.overlaps
        { x := x, y := y, width := (getBuildingDimensions cache b.name).width,
          height := (getBuildingDimensions cache b.name).height }
        { x := other.x, y := other.y,
          width := (getBuildingDimensionsPair cache other.name).1,
          height := (getBuildingDimensionsPair cache other.name).2 } = true) :
    (moveValidate db cache p ctx).status = ActionStatus.FAIL ∧
    (moveValidate db cache p ctx).error_code = "move_location_invalid" ∧
    other.id ∈ (checkPlacement db cache ctx.requesting_fiefdom_id b.name x y
        false bid).overlapping_building_ids ∧
    (moveExecute db cache p ctx now).1 = moveValidate db cache p ctx := by
  have hpred : other ∈ db.buildings.filter
      (fun b2 => b2.fiefdom_id == ctx.requesting_fiefdom_id && b2.id != bid) := by
    rw [List.mem_filter]
    refine ⟨hmem, ?_⟩
    simp [hofid, bne, hoid]
  have hpred2 : other ∈ (db.buildings.filter
      (fun b2 => b2.fiefdom_id == ctx.requesting_fiefdom_id && b2.id != bid)).filter
      (fun b2 =>
        Rect.overlaps
          { x := x, y := y, width := (getBuildingDimensions cache b.name).width,
            height := (getBuildingDimensions cache b.name).height }
          { x := b2.x, y := b2.y,
            width := (getBuildingDimensionsPair cache b2.name).1,
            height := (getBuildingDimensionsPair cache b2.name).2 }) := by
    rw [List.mem_filter]
    exact ⟨hpred, hovl⟩
  have hmm : other.id ∈ ((db.buildings.filter
      (fun b2 => b2.fiefdom_id == ctx.requesting_fiefdom_id && b2.id != bid)).filter
      (fun b2 =>
        Rect.overlaps
          { x := x, y := y, width := (getBuildingDimensions cache b.name).width,
            height := (getBuildingDimensions cache b.name).height }
          { x := b2.x, y := b2.y,
            width := (getBuildingDimensionsPair cache b2.name).1,
            height := (getBuildingDimensionsPair cache b2.name).2 })).map
      (fun b2 => b2.id) :=
    List.mem_map_of_mem _ hpred2
  have hne : ((db.buildings.filter
      (fun b2 => b2.fiefdom_id == ctx.requesting_fiefdom_id && b2.id != bid)).filter
      (fun b2 =>
        Rect.overlaps
          { x := x, y := y, width := (getBuildingDimensions cache b.name).width,
            height := (getBuildingDimensions cache b.name).height }
          { x := b2.x, y := b2.y,
            width := (getBuildingDimensionsPair cache b2.name).1,
            height := (getBuildingDimensionsPair cache b2.name).2 })).map
      (fun b2 => b2.id) ≠ [] :=
    List.ne_nil_of_mem hmm
  have hcp : checkPlacement db cache ctx.requesting_fiefdom_id b.name x y false bid
      = { valid := false,
          overlapping_building_ids := ((db.buildings.filter
            (fun b2 => b2.fiefdom_id == ctx.requesting_fiefdom_id && b2.id != bid)).filter
            (fun b2 =>
              Rect.overlaps
                { x := x, y := y, width := (getBuildingDimensions cache b.name).width,
                  height := (getBuildingDimensions cache b.name).height }
                { x := b2.x, y := b2.y,
                  width := (getBuildingDimensionsPair cache b2.name).1,
                  height := (getBuildingDimensionsPair cache b2.name).2 })).map
            (fun b2 => b2.id),
          error_message := "Location overlaps with existing buildings" } := by
    simp only [checkPlacement, hpos, Bool.not_true, Bool.false_eq_true, if_false,
      Bool.and_false, Bool.false_and, hdims, if_pos hbidpos]
    rw [if_neg (by simp only [List.isEmpty_iff]; exact hne)]
  have hnm : ((db.findBuilding bid).map (fun b2 => b2.name)).getD "" = b.name := by
    rw [hrow]
    rfl
  have hlv : ((db.findBuilding bid).map (fun b2 => b2.level)).getD 0 = b.level := by
    rw [hrow]
    rfl
  have hbeq : (b.name == "home_base") = false := by simpa using hnothb
  have hval : moveValidate db cache p ctx
      = failR "move_location_invalid" "Location overlaps with existing buildings" := by
    simp only [moveValidate, hbid, hx, hy, hown, Bool.not_true, Bool.false_eq_true,
      if_false, hnm, hlv, hbeq, if_neg (not_le.mpr hlvl), hcp]
    rfl
  refine ⟨by rw [hval]; rfl, by rw [hval]; rfl, by rw [hcp]; exact hmm, ?_⟩
  simp only [moveExecute, hval]
  rfl

/-- Witness for the amended C9: scenario S3. -/
theorem move_overlap_fails_with_move_location_invalid_witness :
    (moveValidate dbC9 cacheC9 payloadC9 ctx17).status = ActionStatus.FAIL ∧
    (moveValidate dbC9 cacheC9 payloadC9 ctx17).error_code = "move_location_invalid" ∧
    (2 : Int) ∈ (checkPlacement dbC9 cacheC9 1 "barracks" 11 10
        false 1).overlapping_building_ids ∧
    (moveExecute dbC9 cacheC9 payloadC9 ctx17 1700000000).1
      = moveValidate dbC9 cacheC9 payloadC9 ctx17 :=
  move_overlap_fails_with_move_location_invalid dbC9 cacheC9 payloadC9 ctx17
    1700000000 1 11 10
    { id := 1, fiefdom_id := 1, name := "barracks", level := 2, x := 10, y := 10 }
    { id := 2, fiefdom_id := 1, name := "barracks", level := 1, x := 12, y := 10 }
    rfl rfl rfl (by decide) (by decide) (by decide) (by decide) (by decide)
    (by decide) (by decide) (by decide) (by decide) (by decide) (by decide)

theorem foldl_add_int (l : List Int) (init : Int) :
    l.foldl (fun a v => a + v) init = init + l.sum := by
  induction l generalizing init with
  | nil => simp
  | cons a rest ih => simp [List.foldl_cons, ih, add_assoc]

/-- Deleting a building row touches no fiefdom row. -/
theorem findFiefdom_deleteBuilding (db : DB) (bid fid : Int) :
    (deleteBuilding db bid).findFiefdom fid = db.findFiefdom fid := rfl

/-- C4 counterexample: character 7 owns both fiefdom 1 (holding the level-3
mill) and fiefdom 3; a demolish of the mill with requesting_fiefdom_id = 3
passes validation and returns OK, but the owning fiefdom 1 keeps its 100 gold
while fiefdom 3 is credited the 800-gold refund: the handler credits the
caller-supplied context fiefdom, not the owning fiefdom as the claim states. -/
theorem demolish_credits_requesting_fiefdom_not_owner :
    (demolishExecute dbC4x cacheC4 payloadC4 ctxC4x 1700000000).1.status
      = ActionStatus.OK ∧
    ((demolishExecute dbC4x cacheC4 payloadC4 ctxC4x 1700000000).2.findFiefdom 1).map
        (fun f => f.gold) = some 100 ∧
    ((demolishExecute dbC4x cacheC4 payloadC4 ctxC4x 1700000000).2.findFiefdom 3).map
        (fun f => f.gold) = some 900 ∧
    ((demolishExecute dbC4x cacheC4 payloadC4 ctxC4x 1700000000).2.findFiefdom 1).map
        (fun f => f.gold)
      ≠ some (100 + (claimDemolishRefund millCfg 3 Res.gold).getD 0) := by decide

/-- C4 (amended): demolishing a non-home_base building at level L refunds,
per resource with a positive cumulative cost over the completed levels, the
floor of 80 percent of that cumulative cost; the refund is credited to the
fiefdom named by the caller-supplied ctx.requesting_fiefdom_id (which the
handler never compares against the building's owning fiefdom), one diff is
emitted per refunded resource, and the building row is deleted. -/
theorem demolish_refunds_80_percent_and_deletes (db : DB) (cache : GameConfigCache)
    (p : DemolishPayload) (ctx : ActionContext) (now bid : Int)
    (b : BuildingRow) (cfg : BuildingConfig) (frow : FiefdomRow)
    (hbid : p.building_id = some bid)
    (hrow : db.findBuilding bid = some b)
    (hown : userOwnsBuilding db ctx bid = true)
    (hnothb : b.name ≠ "home_base")
    (hcfg : getBuildingConfig cache b.name = some cfg)
    (_hlen : ∀ r : Res, ∀ l : List Int, cfg.costField r = some l →
        b.level.toNat ≤ l.length)
    (hfrow : db.findFiefdom ctx.requesting_fiefdom_id = some frow) :
    (demolishExecute db cache p ctx now).1.status = ActionStatus.OK ∧
    (∀ r : Res,
      (((demolishExecute db cache p ctx now).1.result.refund).getD {}).get r
        = claimDemolishRefund cfg b.level.toNat r) ∧
    (∀ r : Res,
      ((demolishExecute db cache p ctx now).2.findFiefdom
          ctx.requesting_fiefdom_id).map (fun f => f.res r)
        = some (frow.res r + (claimDemolishRefund cfg b.level.toNat r).getD 0)) ∧
    (demolishExecute db cache p ctx now).2.findBuilding bid = none ∧
    ((demolishExecute db cache p ctx now).1.side_effects.map (fun d => d.field)
      = resOrder.filterMap fun r =>
          (claimDemolishRefund cfg b.level.toNat r).map fun _ => r.name) := by
  have hnm : ((db.findBuilding bid).map (fun b2 => b2.name)).getD "" = b.name := by
    rw [hrow]
    rfl
  have hlv : ((db.findBuilding bid).map (fun b2 => b2.level)).getD 0 = b.level := by
    rw [hrow]
    rfl
  have hbeq : (b.name == "home_base") = false := by simpa using hnothb
  have hvOK : (demolishValidate db p ctx).status = ActionStatus.OK := by
    simp [demolishValidate, hbid, hown, hnm, hbeq]
  have hstat : ((demolishValidate db p ctx).status != ActionStatus.OK) = false := by
    rw [hvOK]
    rfl
  have href : ∀ r : Res,
      CostMap.get (demolishRefundMap (calculateCumulativeCost cache b.name b.level)) r
        = claimDemolishRefund cfg b.level.toNat r := by
    intro r
    have hfield : ∀ o : Option (List Int),
        (cumulField o b.level).map refund80
          = (match o with
             | none => none
             | some l =>
               let s := (l.take b.level.toNat).sum
               if 0 < s then some (4 * s / 5) else none) := by
      intro o
      cases o with
      | none => rfl
      | some l =>
        simp only [cumulField, foldl_add_int, zero_add]
        by_cases hp : 0 < (l.take b.level.toNat).sum
        · simp [hp, refund80]
        · simp [hp]
    cases r <;>
      simp only [demolishRefundMap, calculateCumulativeCost, hcfg, CostMap.get,
        claimDemolishRefund, BuildingConfig.costField] <;>
      exact hfield _
  have hbalfn : db.balancesOf ctx.requesting_fiefdom_id = frow.res := by
    funext r
    simp [DB.balancesOf, hfrow]
  simp only [demolishExecute, hstat, Bool.false_eq_true, if_false, hbid,
    Option.getD_some, hnm, hlv]
  have hopb : ∀ z : Res, opBal (fun a k => a + k)
      (db.balancesOf ctx.requesting_fiefdom_id)
      (demolishRefundMap (calculateCumulativeCost cache b.name b.level)) z
      = frow.res z + (claimDemolishRefund cfg b.level.toNat z).getD 0 := by
    intro z
    simp only [opBal, href z, hbalfn]
    cases claimDemolishRefund cfg b.level.toNat z <;> simp
  refine ⟨trivial, ?_, ?_, findBuilding_deleteBuilding _ bid, ?_⟩
  · intro r
    simpa using href r
  · intro r
    simp only [findFiefdom_deleteBuilding, refundResources, resourceApply_db,
      findFiefdom_writeBalances, hfrow, Option.map_some]
    cases r <;> simp [FiefdomRow.res, hopb]
  · simp only [refundResources, resourceApply_diffs, expectedDiffs_fields]
    apply List.filterMap_congr
    intro r _
    rw [href r]

/-- Witness for C4: scenario S2, the level-3 mill with cumulative costs 1000
gold and 500 wood; the refund is 800 gold and 400 wood. -/
theorem demolish_refunds_80_percent_and_deletes_witness :
    (demolishExecute dbC4 cacheC4 payloadC4 ctx17 1700000000).1.status
      = ActionStatus.OK ∧
    (∀ r : Res,
      (((demolishExecute dbC4 cacheC4 payloadC4 ctx17 1700000000).1.result.refund).getD
          {}).get r
        = claimDemolishRefund millCfg 3 r) ∧
    (∀ r : Res,
      ((demolishExecute dbC4 cacheC4 payloadC4 ctx17 1700000000).2.findFiefdom 1).map
          (fun f => f.res r)
        = some (fiefRich.res r + (claimDemolishRefund millCfg 3 r).getD 0)) ∧
    (demolishExecute dbC4 cacheC4 payloadC4 ctx17 1700000000).2.findBuilding 2 = none ∧
    ((demolishExecute dbC4 cacheC4 payloadC4 ctx17 1700000000).1.side_effects.map
        (fun d => d.field)
      = resOrder.filterMap fun r =>
          (claimDemolishRefund millCfg 3 r).map fun _ => r.name) :=
  demolish_refunds_80_percent_and_deletes dbC4 cacheC4 payloadC4 ctx17 1700000000 2
    { id := 2, fiefdom_id := 1, name := "mill", level := 3, x := 5, y := 5 }
    millCfg fiefRich rfl (by decide) (by decide) (by decide) (by decide)
    (by intro r l h
        cases r <;> simp_all [millCfg, BuildingConfig.costField] <;>
          subst h <;> decide)
    (by decide)

end Web2D
